import Mathlib

/-!
# Inventory web handlers of the forklift controller: tree, item and filter paths

A shallow embedding of

* `pkg/controller/provider/web/ovirt/tree.go`  (TreeHandler, BranchNavigator, NodeBuilder),
* `pkg/controller/provider/web/ovirt/host.go`  (HostHandler.Get, the Host resource),
* `pkg/controller/provider/web/vsphere/datastore.go` (DatastoreHandler.Get, filter),
* `pkg/controller/provider/web/vsphere/folder.go` (FolderHandler.Get),

followed by the properties proved about them.

Conventions of the embedding.

* A Go `(value, error)` result of a store call is an `Except Error value`.
  Where the Go function itself hands back both a value and an error
  (`BranchNavigator.Next`), the pair is kept.
* The store is read-only for these handlers; it is a record of functions, one
  per typed read, so that a theorem quantified over the record holds for every
  behaviour of the store.
* Store reads are effects.  Functions that read the store also return the reads
  they issued, in order, each with the error the store answered.
* `gin.Context` is split into the request (`Context`) and the response being
  written (`Response`): `ctx.Status` sets the status, `ctx.JSON` sets the
  status and the body.
* Functions of packages that are not part of the embedded files are taken as
  fields of a `Deps` record (or as an explicit argument), so that the theorems
  hold for every implementation of them.  Where such a declaration has to be
  given a body (the resources other than Host, the tree builder used by the
  fixtures), it follows the design specification and its doc comment says so.
* A failed Go type assertion (a panic) is `none`.
-/

set_option autoImplicit false

/-! ## net/http status codes -/

namespace http

def StatusOK : Nat := 200
def StatusBadRequest : Nat := 400
def StatusNotFound : Nat := 404
def StatusMethodNotAllowed : Nat := 405
def StatusInternalServerError : Nat := 500

end http

/-! ## Errors -/

/-- Go `error` values: the store sentinel `model.NotFound`, any other error,
and an error wrapping another one (the chain `errors.Is` walks). -/
inductive Error where
  | NotFound
  | Other (msg : String)
  | Wrap (msg : String) (cause : Error)
  deriving DecidableEq, Repr

namespace errors

/-- Go `errors.Is(err, model.NotFound)` on a non-nil error: the error or one of
the errors it wraps is the sentinel. -/
def IsNotFound : Error → Bool
  | .NotFound => true
  | .Other _ => false
  | .Wrap _ cause => IsNotFound cause

end errors

/-- The error of a store answer, `none` when the call succeeded (Go `err == nil`). -/
def Except.err? {α : Type} : Except Error α → Option Error
  | .ok _ => none
  | .error e => some e

/-! ## gin: request and response -/

/-- Request side of `gin.Context`: the path parameters (`ctx.Param`) and the
URL query (`ctx.Request.URL.Query().Get`, the empty string when absent). -/
structure Context where
  Param : String → String
  Query : String → String

/-- Response side of `gin.Context`.  `body` is `none` until `JSON` is called. -/
structure Response (α : Type) where
  status : Nat
  body : Option α

namespace Response

/-- The response before the handler wrote anything (gin answers 200 by default). -/
def init {α : Type} : Response α := { status := http.StatusOK, body := none }

/-- Go `ctx.Status(code)`. -/
def Status {α : Type} (w : Response α) (code : Nat) : Response α :=
  { w with status := code }

/-- Go `ctx.JSON(code, obj)`. -/
def JSON {α : Type} (_w : Response α) (code : Nat) (obj : α) : Response α :=
  { status := code, body := some obj }

end Response

/-- The provider `api.Provider`; only its UID is read (by `Link`). -/
structure Provider where
  UID : String
  deriving DecidableEq, Repr

/-- Go `base.Params`: route parameter values by name, as written in the literal. -/
abbrev Params := List (String × String)

/-! ## oVirt -/

namespace ovirt

namespace model

/-- Go `model.Base`: the primary key of every record. -/
structure Base where
  ID : String
  deriving DecidableEq, Repr

structure DataCenter where
  Base : Base
  deriving DecidableEq, Repr

/-- Go `model.Cluster`; `DataCenter` is the column `listCluster` filters on. -/
structure Cluster where
  Base : Base
  DataCenter : String
  deriving DecidableEq, Repr

/-- Element types of the host lists; their fields are not read by the handlers. -/
structure NetworkAttachment where
  ID : String
  deriving DecidableEq, Repr

structure HostNIC where
  ID : String
  deriving DecidableEq, Repr

/-- Go `model.Host`, with the fields `Host.With` copies. -/
structure Host where
  Base : Base
  Cluster : String
  ProductName : String
  ProductVersion : String
  InMaintenance : Bool
  CpuSockets : Int
  CpuCores : Int
  NetworkAttachments : List NetworkAttachment
  NICs : List HostNIC
  deriving DecidableEq, Repr

/-- Go `model.VM`; `Cluster` is the column `listVM` filters on. -/
structure VM where
  Base : Base
  Cluster : String
  deriving DecidableEq, Repr

structure Network where
  Base : Base
  deriving DecidableEq, Repr

structure StorageDomain where
  Base : Base
  deriving DecidableEq, Repr

/-- Go `model.Model` (an interface): a pointer to one of the model structs the
tree knows, or to any other type implementing the interface, of which only
the type name and the primary key are observable here. -/
inductive Model where
  | DataCenter (m : model.DataCenter)
  | Cluster (m : model.Cluster)
  | Host (m : model.Host)
  | VM (m : model.VM)
  | Network (m : model.Network)
  | StorageDomain (m : model.StorageDomain)
  | Other (typeName : String) (id : String)
  deriving DecidableEq, Repr

def DataCenterKind : String := "DataCenter"
def ClusterKind : String := "Cluster"
def HostKind : String := "Host"
def VmKind : String := "VM"
def NetKind : String := "Network"
def StorageKind : String := "StorageDomain"

/-- Go `libref.ToKind(m)`: the name of the type behind the interface. -/
def ToKind : Model → String
  | .DataCenter _ => DataCenterKind
  | .Cluster _ => ClusterKind
  | .Host _ => HostKind
  | .VM _ => VmKind
  | .Network _ => NetKind
  | .StorageDomain _ => StorageKind
  | .Other typeName _ => typeName

/-- Primary key of a record. -/
def Model.ID : Model → String
  | .DataCenter m => m.Base.ID
  | .Cluster m => m.Base.ID
  | .Host m => m.Base.ID
  | .VM m => m.Base.ID
  | .Network m => m.Base.ID
  | .StorageDomain m => m.Base.ID
  | .Other _ id => id

/-- Go `libmodel.Eq(field, value)`, the only predicate the handlers build. -/
structure Predicate where
  Field : String
  Value : String
  deriving DecidableEq, Repr

/-- Go `model.ListOptions`; the zero value has no predicate and detail 0. -/
structure ListOptions where
  Predicate : Option Predicate := none
  Detail : Nat := 0
  deriving DecidableEq, Repr

/-- Go `libmodel.DB` as these handlers use it: `List` into a slice of each
record type, and `Get` of a host by the key set in the record passed in. -/
structure DB where
  ListDataCenter : ListOptions → Except Error (List DataCenter)
  ListCluster : ListOptions → Except Error (List Cluster)
  ListHost : ListOptions → Except Error (List Host)
  ListVM : ListOptions → Except Error (List VM)
  GetHost : Host → Except Error Host

/-- One `db.List` call as issued: the kind of the slice listed into, the options
passed, and the error the store answered (`none` on success). -/
structure Read where
  Kind : String
  Options : ListOptions
  err : Option Error
  deriving DecidableEq, Repr

end model

open model in
/-- Go `Handler` of the oVirt web package (embedded in every handler): the
provider, the collector (of which only `DB()` is used) and the two request
flags its `Prepare` sets. -/
structure Handler where
  Provider : Provider
  DB : DB
  Detail : Bool
  WatchRequest : Bool

/-- Declarations used by the embedded files whose bodies are elsewhere.
`Prepare` is `Handler.Prepare`: it returns a status and updates the handler
(flags, provider, collector).  `Link` is `base.Link`.  The others are
constants: the route root, the provider route parameter, `model.MaxDetail`,
and per kind the item route and route parameter of the resources whose files
are not embedded. -/
structure Deps where
  Prepare : Handler → Context → Nat × Handler
  Link : String → Params → String
  ProviderRoot : String
  ProviderParam : String
  MaxDetail : Nat
  ItemRoot : String → String
  ItemParam : String → String

/-! ### REST resources -/

/-- Modelled from the spec: the base `Resource` of the oVirt web package (its
file is not embedded), the minimal reference of a record: identity and link. -/
structure Resource where
  ID : String
  SelfLink : String
  deriving DecidableEq, Repr

/-- Modelled from the spec: `Resource.With`, which takes the identity from the
record's `Base`. -/
def Resource.With (r : Resource) (m : model.Base) : Resource :=
  { r with ID := m.ID }

def HostParam : String := "host"
def HostCollection : String := "hosts"
def HostsRoot (D : Deps) : String := D.ProviderRoot ++ "/" ++ HostCollection
def HostRoot (D : Deps) : String := HostsRoot D ++ "/:" ++ HostParam

/-- Go `Host`, the REST resource of host.go. -/
structure Host where
  Resource : Resource
  Cluster : String
  ProductName : String
  ProductVersion : String
  InMaintenance : Bool
  CpuSockets : Int
  CpuCores : Int
  NetworkAttachments : List model.NetworkAttachment
  NICs : List model.HostNIC
  deriving DecidableEq, Repr

/-- Modelled from the spec: the REST resources whose files are not embedded.
Each embeds `Resource`; of their own fields only the columns the navigator
filters on are known. -/
structure DataCenter where
  Resource : Resource
  deriving DecidableEq, Repr

structure Cluster where
  Resource : Resource
  DataCenter : String
  deriving DecidableEq, Repr

structure VM where
  Resource : Resource
  Cluster : String
  deriving DecidableEq, Repr

structure Network where
  Resource : Resource
  deriving DecidableEq, Repr

structure StorageDomain where
  Resource : Resource
  deriving DecidableEq, Repr

/-- Go `interface{}` as the handlers fill it: nothing, the base `Resource`
(the reference stub), or one of the full resources. -/
inductive Object where
  | nil
  | Resource (r : Resource)
  | DataCenter (r : DataCenter)
  | Cluster (r : Cluster)
  | Host (r : Host)
  | VM (r : VM)
  | Network (r : Network)
  | StorageDomain (r : StorageDomain)
  deriving DecidableEq, Repr

/-- The zero value `Resource{}`. -/
def Resource.zero : Resource := { ID := "", SelfLink := "" }

/-- The zero value `Host{}`. -/
def Host.zero : Host :=
  { Resource := Resource.zero, Cluster := "", ProductName := "", ProductVersion := "",
    InMaintenance := false, CpuSockets := 0, CpuCores := 0, NetworkAttachments := [], NICs := [] }

/-- Go `Host.With`: build the resource using the model. -/
def Host.With (r : Host) (m : model.Host) : Host :=
  { r with
    Resource := r.Resource.With m.Base
    Cluster := m.Cluster
    ProductName := m.ProductName
    ProductVersion := m.ProductVersion
    InMaintenance := m.InMaintenance
    CpuSockets := m.CpuSockets
    CpuCores := m.CpuCores
    NetworkAttachments := m.NetworkAttachments
    NICs := m.NICs }

/-- Go `Host.Link`: build the self link. -/
def Host.Link (D : Deps) (r : Host) (p : Provider) : Host :=
  { r with
    Resource :=
      { r.Resource with
        SelfLink := D.Link (HostRoot D) [(D.ProviderParam, p.UID), (HostParam, r.Resource.ID)] } }

/-- Go `Host.Content`: the base resource unless detail is asked for. -/
def Host.Content (r : Host) (detail : Bool) : Object :=
  if !detail then Object.Resource r.Resource else Object.Host r

/-- Modelled from the spec: `Link` of a resource whose file is not embedded; as
`Host.Link`, with the item route and parameter of the kind. -/
def Resource.Link (D : Deps) (kind : String) (r : Resource) (p : Provider) : Resource :=
  { r with
    SelfLink := D.Link (D.ItemRoot kind) [(D.ProviderParam, p.UID), (D.ItemParam kind, r.ID)] }

def DataCenter.zero : DataCenter := { Resource := Resource.zero }

/-- Modelled from the spec: `DataCenter.With`. -/
def DataCenter.With (r : DataCenter) (m : model.DataCenter) : DataCenter :=
  { r with Resource := r.Resource.With m.Base }

/-- Modelled from the spec: `DataCenter.Link`. -/
def DataCenter.Link (D : Deps) (r : DataCenter) (p : Provider) : DataCenter :=
  { r with Resource := r.Resource.Link D model.DataCenterKind p }

/-- Modelled from the spec: `DataCenter.Content`, full payload if flagged, else
minimal reference. -/
def DataCenter.Content (r : DataCenter) (detail : Bool) : Object :=
  if !detail then Object.Resource r.Resource else Object.DataCenter r

def Cluster.zero : Cluster := { Resource := Resource.zero, DataCenter := "" }

/-- Modelled from the spec: `Cluster.With`. -/
def Cluster.With (r : Cluster) (m : model.Cluster) : Cluster :=
  { r with Resource := r.Resource.With m.Base, DataCenter := m.DataCenter }

/-- Modelled from the spec: `Cluster.Link`. -/
def Cluster.Link (D : Deps) (r : Cluster) (p : Provider) : Cluster :=
  { r with Resource := r.Resource.Link D model.ClusterKind p }

/-- Modelled from the spec: `Cluster.Content`, full payload if flagged, else
minimal reference. -/
def Cluster.Content (r : Cluster) (detail : Bool) : Object :=
  if !detail then Object.Resource r.Resource else Object.Cluster r

def VM.zero : VM := { Resource := Resource.zero, Cluster := "" }

/-- Modelled from the spec: `VM.With`. -/
def VM.With (r : VM) (m : model.VM) : VM :=
  { r with Resource := r.Resource.With m.Base, Cluster := m.Cluster }

/-- Modelled from the spec: `VM.Link`. -/
def VM.Link (D : Deps) (r : VM) (p : Provider) : VM :=
  { r with Resource := r.Resource.Link D model.VmKind p }

/-- Modelled from the spec: `VM.Content`, full payload if flagged, else minimal
reference. -/
def VM.Content (r : VM) (detail : Bool) : Object :=
  if !detail then Object.Resource r.Resource else Object.VM r

def Network.zero : Network := { Resource := Resource.zero }

/-- Modelled from the spec: `Network.With`. -/
def Network.With (r : Network) (m : model.Network) : Network :=
  { r with Resource := r.Resource.With m.Base }

/-- Modelled from the spec: `Network.Link`. -/
def Network.Link (D : Deps) (r : Network) (p : Provider) : Network :=
  { r with Resource := r.Resource.Link D model.NetKind p }

/-- Modelled from the spec: `Network.Content`, full payload if flagged, else
minimal reference. -/
def Network.Content (r : Network) (detail : Bool) : Object :=
  if !detail then Object.Resource r.Resource else Object.Network r

def StorageDomain.zero : StorageDomain := { Resource := Resource.zero }

/-- Modelled from the spec: `StorageDomain.With`. -/
def StorageDomain.With (r : StorageDomain) (m : model.StorageDomain) : StorageDomain :=
  { r with Resource := r.Resource.With m.Base }

/-- Modelled from the spec: `StorageDomain.Link`. -/
def StorageDomain.Link (D : Deps) (r : StorageDomain) (p : Provider) : StorageDomain :=
  { r with Resource := r.Resource.Link D model.StorageKind p }

/-- Modelled from the spec: `StorageDomain.Content`, full payload if flagged,
else minimal reference. -/
def StorageDomain.Content (r : StorageDomain) (detail : Bool) : Object :=
  if !detail then Object.Resource r.Resource else Object.StorageDomain r

/-! ### tree.go -/

/-- Go `base.TreeNode` (aliased as `TreeNode`): parent back-reference, kind,
object and the child nodes.  The parent pointer is kept as the parent node
itself, as it stood when the child was built; `none` is the nil pointer. -/
inductive TreeNode where
  | mk (Parent : Option TreeNode) (Kind : String) (Object : Object) (Children : List TreeNode)

namespace TreeNode

def Parent : TreeNode → Option TreeNode
  | .mk p _ _ _ => p

def Kind : TreeNode → String
  | .mk _ k _ _ => k

def Object : TreeNode → ovirt.Object
  | .mk _ _ o _ => o

def Children : TreeNode → List TreeNode
  | .mk _ _ _ c => c

/-- The zero value `TreeNode{}`. -/
def zero : TreeNode := .mk none "" ovirt.Object.nil []

/-- Assignment `node.Kind = kind`. -/
def setKind : TreeNode → String → TreeNode
  | .mk p _ o c, k => .mk p k o c

/-- Assignment `node.Object = object`. -/
def setObject : TreeNode → ovirt.Object → TreeNode
  | .mk p k _ c, o => .mk p k o c

/-- Statement `node.Children = append(node.Children, child)`. -/
def appendChild : TreeNode → TreeNode → TreeNode
  | .mk p k o c, child => .mk p k o (c ++ [child])

end TreeNode

/-- Go `TreeHandler`. -/
structure TreeHandler where
  Handler : Handler
  datacenters : List model.DataCenter

/-- Go `BranchNavigator`. -/
structure BranchNavigator where
  db : model.DB
  detail : Bool

/-- Go `NodeBuilder`; `detail` is the map of resource details by kind, a lookup
that answers `none` for a kind that is not a key. -/
structure NodeBuilder where
  handler : Handler
  detail : String → Option Bool

/-- Go `base.Tree` (aliased as `Tree`), as the handler fills it. -/
structure Tree where
  NodeBuilder : NodeBuilder

/-- What `BranchNavigator.Next` hands back, `(r, err)`, with the store reads it
issued. -/
structure NextResult where
  r : List model.Model
  err : Option Error
  reads : List model.Read

namespace BranchNavigator

open model

def listCluster (n : BranchNavigator) (p : model.DataCenter) :
    Except Error (List model.Cluster) × Read :=
  let opts : ListOptions := { Predicate := some { Field := "DataCenter", Value := p.Base.ID } }
  let res := n.db.ListCluster opts
  (res, { Kind := ClusterKind, Options := opts, err := res.err? })

def listHost (n : BranchNavigator) (p : model.Cluster) :
    Except Error (List model.Host) × Read :=
  let opts : ListOptions := { Predicate := some { Field := "Cluster", Value := p.Base.ID } }
  let res := n.db.ListHost opts
  (res, { Kind := HostKind, Options := opts, err := res.err? })

def listVM (n : BranchNavigator) (p : model.Cluster) :
    Except Error (List model.VM) × Read :=
  let detail := if n.detail then 1 else 0
  let opts : ListOptions :=
    { Predicate := some { Field := "Cluster", Value := p.Base.ID }, Detail := detail }
  let res := n.db.ListVM opts
  (res, { Kind := VmKind, Options := opts, err := res.err? })

/-- Go `BranchNavigator.Next`: next (children) on the branch. -/
def Next (n : BranchNavigator) (p : Model) : NextResult :=
  match p with
  | .DataCenter dc =>
    match n.listCluster dc with
    | (.ok list, q) => { r := list.map Model.Cluster, err := none, reads := [q] }
    | (.error nErr, q) => { r := [], err := some nErr, reads := [q] }
  | .Cluster m =>
    match n.listHost m with
    | (.error nErr, q) => { r := [], err := some nErr, reads := [q] }
    | (.ok hostList, q) =>
      let r := hostList.map Model.Host
      match n.listVM m with
      | (.ok vmList, q2) => { r := r ++ vmList.map Model.VM, err := none, reads := [q, q2] }
      | (.error nErr, q2) => { r := r, err := some nErr, reads := [q, q2] }
  | _ => { r := [], err := none, reads := [] }

end BranchNavigator

namespace NodeBuilder

open model

/-- Go `NodeBuilder.withDetail`: build with detail. -/
def withDetail (r : NodeBuilder) (kind : String) : Bool :=
  match r.detail kind with
  | some b => b
  | none => false

/-- Go `NodeBuilder.Node`: build a node for the model.  A type assertion
`m.(*model.T)` on a record of another type panics; that is `none`. -/
def Node (D : Deps) (r : NodeBuilder) (parent : Option TreeNode) (m : Model) : Option TreeNode :=
  let provider := r.handler.Provider
  let kind := ToKind m
  let node := TreeNode.zero
  if kind = DataCenterKind then
    match m with
    | .DataCenter x =>
      let resource := (DataCenter.zero.With x).Link D provider
      let object := resource.Content (r.withDetail kind)
      some (.mk parent kind object [])
    | _ => none
  else if kind = ClusterKind then
    match m with
    | .Cluster x =>
      let resource := (Cluster.zero.With x).Link D provider
      let object := resource.Content (r.withDetail kind)
      some (.mk parent kind object [])
    | _ => none
  else if kind = HostKind then
    match m with
    | .Host x =>
      let resource := (Host.zero.With x).Link D provider
      let object := resource.Content (r.withDetail kind)
      some (.mk parent kind object [])
    | _ => none
  else if kind = VmKind then
    match m with
    | .VM x =>
      let resource := (VM.zero.With x).Link D provider
      let object := resource.Content (r.withDetail kind)
      some (.mk parent kind object [])
    | _ => none
  else if kind = NetKind then
    match m with
    | .Network x =>
      let resource := (Network.zero.With x).Link D provider
      let object := resource.Content (r.withDetail kind)
      some (.mk parent kind object [])
    | _ => none
  else if kind = StorageKind then
    match m with
    | .StorageDomain x =>
      let resource := (StorageDomain.zero.With x).Link D provider
      let object := resource.Content (r.withDetail kind)
      some (.mk parent kind object [])
    | _ => none
  else
    some node

end NodeBuilder

/-- One call of `Tree.Build` by the handler: the tree (with its node builder),
the root and the navigator handed to `Build`, what the call returned and the
store reads its navigator issued. -/
structure BuildCall where
  tree : Tree
  root : model.Model
  navigator : BranchNavigator
  result : Except Error TreeNode
  reads : List model.Read

/-- The signature of `base.Tree.Build` (its file is not embedded): from the
tree, a root record and a navigator to a branch or an error, with the store
reads made through the navigator. -/
abbrev BuildFn := Tree → model.Model → BranchNavigator → Except Error TreeNode × List model.Read

/-- What a run of `TreeHandler.Tree` leaves: the response and the `Build`
calls it made, in order. -/
structure TreeRun where
  response : Response TreeNode
  builds : List BuildCall

namespace TreeHandler

open model http

/-- Go `TreeHandler.Prepare`: prepare to handle the request. -/
def Prepare (D : Deps) (h : TreeHandler) (ctx : Context) (w : Response TreeNode) :
    Nat × TreeHandler × Response TreeNode :=
  let (status, base) := D.Prepare h.Handler ctx
  let h := { h with Handler := base }
  if status ≠ StatusOK then
    (status, h, w.Status status)
  else
    let db := h.Handler.DB
    match db.ListDataCenter { Detail := D.MaxDetail } with
    | .error _ => (StatusInternalServerError, h, w)
    | .ok list => (StatusOK, { h with datacenters := list }, w)

/-- The loop of `TreeHandler.Tree` over `h.datacenters`, with the final
`ctx.JSON`; `content` is the node being filled and `log` the calls so far. -/
def Tree.loop (D : Deps) (build : BuildFn) (h : TreeHandler) (db : DB) (w : Response TreeNode) :
    List model.DataCenter → TreeNode → List BuildCall → TreeRun
  | [], content, log => { response := w.JSON StatusOK content, builds := log }
  | dc :: rest, content, log =>
    let tr : ovirt.Tree :=
      { NodeBuilder :=
          { handler := h.Handler
            detail := fun k => if k = VmKind then some h.Handler.Detail else none } }
    let nav : BranchNavigator := { detail := h.Handler.Detail, db := db }
    let (res, reads) := build tr (Model.DataCenter dc) nav
    let log := log ++
      [{ tree := tr, root := Model.DataCenter dc, navigator := nav, result := res, reads := reads }]
    match res with
    | .error _ => { response := w.Status StatusInternalServerError, builds := log }
    | .ok branch =>
      let r := (DataCenter.zero.With dc).Link D h.Handler.Provider
      let branch := branch.setKind DataCenterKind
      let branch := branch.setObject (Object.DataCenter r)
      Tree.loop D build h db w rest (content.appendChild branch) log

/-- Go `TreeHandler.Tree`. -/
def Tree (D : Deps) (build : BuildFn) (h : TreeHandler) (ctx : Context) : TreeRun :=
  let w : Response TreeNode := Response.init
  let (status, h, w) := h.Prepare D ctx w
  if status ≠ StatusOK then
    { response := w.Status status, builds := [] }
  else if h.Handler.WatchRequest then
    { response := w.Status StatusBadRequest, builds := [] }
  else
    let db := h.Handler.DB
    let content := TreeNode.zero
    Tree.loop D build h db w h.datacenters content []

end TreeHandler

/-! ### The tree builder -/

namespace Tree

open model

/-- Modelled from the spec: the recursion of `base.Tree.Build` (the `base`
package is not embedded).  Build the node of the record, linked to `parent`;
query the navigator for its children; for each child, in the order returned,
build its branch under the node and append it.  A navigator error at any depth
aborts the build.  The builder has no cycle guard, so the recursion is bounded
by `fuel`; `none` is a build that did not return (fuel exhausted, or a panic in
`NodeBuilder.Node`). -/
def walk (D : Deps) (tr : Tree) (nav : BranchNavigator) :
    Nat → Option TreeNode → Model → Option (Except Error TreeNode × List Read)
  | 0, _, _ => none
  | fuel + 1, parent, m =>
    match tr.NodeBuilder.Node D parent m with
    | none => none
    | some node =>
      let next := nav.Next m
      match next.err with
      | some err => some (.error err, next.reads)
      | none =>
        next.r.foldl
          (fun acc child =>
            match acc with
            | some (.ok n, reads) =>
              match walk D tr nav fuel (some node) child with
              | none => none
              | some (.ok branch, rs) => some (.ok (n.appendChild branch), reads ++ rs)
              | some (.error err, rs) => some (.error err, reads ++ rs)
            | other => other)
          (some (.ok node, next.reads))

/-- Modelled from the spec: `base.Tree.Build(root, navigator)`, the walk from a
root without parent. -/
def Build (D : Deps) (fuel : Nat) (tr : Tree) (m : Model) (nav : BranchNavigator) :
    Option (Except Error TreeNode × List Read) :=
  walk D tr nav fuel none m

/-- The builder as the handler calls it.  Under `BranchNavigator` a branch is
at most three records deep (data center, cluster, host or VM), so fuel 3 is
enough from a data center; a build that does not return is reported as an
error. -/
def BuildFn (D : Deps) : ovirt.BuildFn :=
  fun tr m nav =>
    match Build D 3 tr m nav with
    | some res => res
    | none => (.error (Error.Other "build did not return"), [])

end Tree

/-! ### host.go -/

/-- Go `HostHandler`. -/
structure HostHandler where
  Handler : Handler

/-- The zero value `model.Host{}`. -/
def model.Host.zero : model.Host :=
  { Base := { ID := "" }, Cluster := "", ProductName := "", ProductVersion := "",
    InMaintenance := false, CpuSockets := 0, CpuCores := 0, NetworkAttachments := [], NICs := [] }

namespace HostHandler

open http

/-- Go `HostHandler.Get`: get a specific REST resource. -/
def Get (D : Deps) (h : HostHandler) (ctx : Context) : Response Object :=
  let w : Response Object := Response.init
  let (status, base) := D.Prepare h.Handler ctx
  let h : HostHandler := { h with Handler := base }
  if status ≠ StatusOK then
    w.Status status
  else
    let h : HostHandler := { h with Handler := { h.Handler with Detail := true } }
    let m : model.Host := { model.Host.zero with Base := { ID := ctx.Param HostParam } }
    let db := h.Handler.DB
    match db.GetHost m with
    | .error err =>
      if errors.IsNotFound err then
        w.Status StatusNotFound
      else
        w.Status StatusInternalServerError
    | .ok m =>
      let r := (Host.zero.With m).Link D h.Handler.Provider
      let content := r.Content true
      w.JSON StatusOK content

end HostHandler

end ovirt

/-! ## Go `strings` -/

namespace strings

/-- The pieces of a character list between occurrences of `sep`. -/
def splitChars (sep : Char) : List Char → List (List Char)
  | [] => [[]]
  | c :: cs =>
    if c = sep then
      [] :: splitChars sep cs
    else
      match splitChars sep cs with
      | [] => [[c]]
      | piece :: pieces => (c :: piece) :: pieces

/-- Go `strings.Split(s, sep)` for a separator of one character: the substrings
between the separators, one more than there are separators. -/
def Split (s : String) (sep : Char) : List String :=
  (splitChars sep s.toList).map String.mk

end strings

/-! ## vSphere -/

namespace vsphere

namespace model

set_option linter.dupNamespace false

/-- Go `model.Base`: the primary key of every record. -/
structure Base where
  ID : String
  deriving DecidableEq, Repr

/-- Go `model.Ref`. -/
structure Ref where
  Kind : String
  ID : String
  deriving DecidableEq, Repr

/-- Go `model.Datastore`, with the fields `Datastore.With` copies (`Type_` is
the Go field `Type`). -/
structure Datastore where
  Base : Base
  Type_ : String
  Capacity : Int
  Free : Int
  MaintenanceMode : String
  deriving DecidableEq, Repr

/-- Go `model.Folder`, with the fields `Folder.With` copies. -/
structure Folder where
  Base : Base
  Folder : String
  Datacenter : String
  Children : List Ref
  deriving DecidableEq, Repr

def Datastore.zero : Datastore :=
  { Base := { ID := "" }, Type_ := "", Capacity := 0, Free := 0, MaintenanceMode := "" }

def Folder.zero : model.Folder :=
  { Base := { ID := "" }, Folder := "", Datacenter := "", Children := [] }

/-- Go `libmodel.DB` as the item handlers use it: `Get` by the key set in the
record passed in. -/
structure DB where
  GetDatastore : Datastore → Except Error Datastore
  GetFolder : Folder → Except Error Folder

end model

/-- Go `Handler` of the vSphere web package: provider, collector (of which only
`DB()` is used) and the request flags. -/
structure Handler where
  Provider : Provider
  DB : model.DB
  Detail : Bool
  WatchRequest : Bool

/-- Declarations used by the embedded files whose bodies are elsewhere:
`Handler.Prepare` (a status and the updated handler), `Handler.PathMatchRoot`,
`base.Link`, the inventory path of a record (`m.Path(db)`), and the constants
`ProviderRoot`, `base.ProviderParam` and `NameParam`. -/
structure Deps where
  Prepare : Handler → Context → Nat × Handler
  PathMatchRoot : Handler → String → String → Bool
  Link : String → Params → String
  DatastorePath : model.Datastore → model.DB → Except Error String
  FolderPath : model.Folder → model.DB → Except Error String
  ProviderRoot : String
  ProviderParam : String
  NameParam : String

/-- Modelled from the spec: the base `Resource` of the vSphere web package (its
file is not embedded): identity, link, and the `Path` the handlers assign. -/
structure Resource where
  ID : String
  Path : String
  SelfLink : String
  deriving DecidableEq, Repr

def Resource.zero : Resource := { ID := "", Path := "", SelfLink := "" }

/-- Modelled from the spec: `Resource.With`, which takes the identity from the
record's `Base`. -/
def Resource.With (r : Resource) (m : model.Base) : Resource :=
  { r with ID := m.ID }

/-- Go `Datastore`, the REST resource of datastore.go (`Type_` is the Go field
`Type`). -/
structure Datastore where
  Resource : Resource
  Type_ : String
  Capacity : Int
  Free : Int
  MaintenanceMode : String
  deriving DecidableEq, Repr

set_option linter.dupNamespace false in
/-- Go `Folder`, the REST resource of folder.go. -/
structure Folder where
  Resource : Resource
  Folder : String
  Datacenter : String
  Children : List model.Ref
  deriving DecidableEq, Repr

/-- Go `interface{}` as the handlers fill it. -/
inductive Object where
  | nil
  | Resource (r : Resource)
  | Datastore (r : Datastore)
  | Folder (r : Folder)
  deriving DecidableEq, Repr

def DatastoreParam : String := "datastore"
def DatastoreCollection : String := "datastores"
def DatastoresRoot (D : Deps) : String := D.ProviderRoot ++ "/" ++ DatastoreCollection
def DatastoreRoot (D : Deps) : String := DatastoresRoot D ++ "/:" ++ DatastoreParam

def FolderParam : String := "folder"
def FolderCollection : String := "folders"
def FoldersRoot (D : Deps) : String := D.ProviderRoot ++ "/" ++ FolderCollection
def FolderRoot (D : Deps) : String := FoldersRoot D ++ "/:" ++ FolderParam

def Datastore.zero : Datastore :=
  { Resource := Resource.zero, Type_ := "", Capacity := 0, Free := 0, MaintenanceMode := "" }

/-- Go `Datastore.With`: build the resource using the model. -/
def Datastore.With (r : Datastore) (m : model.Datastore) : Datastore :=
  { r with
    Resource := r.Resource.With m.Base
    Type_ := m.Type_
    Capacity := m.Capacity
    Free := m.Free
    MaintenanceMode := m.MaintenanceMode }

/-- Go `Datastore.Link`: build the self link. -/
def Datastore.Link (D : Deps) (r : Datastore) (p : Provider) : Datastore :=
  { r with
    Resource :=
      { r.Resource with
        SelfLink :=
          D.Link (DatastoreRoot D) [(D.ProviderParam, p.UID), (DatastoreParam, r.Resource.ID)] } }

/-- Go `Datastore.Content`. -/
def Datastore.Content (r : Datastore) (detail : Bool) : Object :=
  if !detail then Object.Resource r.Resource else Object.Datastore r

def Folder.zero : vsphere.Folder :=
  { Resource := Resource.zero, Folder := "", Datacenter := "", Children := [] }

/-- Go `Folder.With`: build the resource using the model. -/
def Folder.With (r : vsphere.Folder) (m : model.Folder) : vsphere.Folder :=
  { r with
    Resource := r.Resource.With m.Base
    Folder := m.Folder
    Datacenter := m.Datacenter
    Children := m.Children }

/-- Go `Folder.Link`: build the self link. -/
def Folder.Link (D : Deps) (r : vsphere.Folder) (p : Provider) : vsphere.Folder :=
  { r with
    Resource :=
      { r.Resource with
        SelfLink :=
          D.Link (FolderRoot D) [(D.ProviderParam, p.UID), (FolderParam, r.Resource.ID)] } }

/-- Go `Folder.Content`. -/
def Folder.Content (r : vsphere.Folder) (detail : Bool) : Object :=
  if !detail then Object.Resource r.Resource else Object.Folder r

/-- Go `DatastoreHandler`. -/
structure DatastoreHandler where
  Handler : Handler

/-- Go `FolderHandler`; `folder` is the selected folder (nil when `none`). -/
structure FolderHandler where
  Handler : Handler
  folder : Option model.Folder

namespace DatastoreHandler

open http

/-- Go `DatastoreHandler.Get`: get a specific REST resource. -/
def Get (D : Deps) (h : DatastoreHandler) (ctx : Context) : Response Object :=
  let w : Response Object := Response.init
  let (status, base) := D.Prepare h.Handler ctx
  let h : DatastoreHandler := { h with Handler := base }
  if status ≠ StatusOK then
    w.Status status
  else
    let m : model.Datastore :=
      { model.Datastore.zero with Base := { ID := ctx.Param DatastoreParam } }
    let db := h.Handler.DB
    match db.GetDatastore m with
    | .error err =>
      if errors.IsNotFound err then
        w.Status StatusNotFound
      else
        w.Status StatusInternalServerError
    | .ok m =>
      let r := Datastore.zero.With m
      match D.DatastorePath m db with
      | .error _ => w.Status StatusInternalServerError
      | .ok path =>
        let r := { r with Resource := { r.Resource with Path := path } }
        let r := r.Link D h.Handler.Provider
        let content := r.Content true
        w.JSON StatusOK content

/-- The loop of `DatastoreHandler.filter` over the list; `kept` accumulates. -/
def filter.loop (D : Deps) (h : DatastoreHandler) (db : model.DB) (name : String) :
    List model.Datastore → List model.Datastore → Except Error (List model.Datastore)
  | [], kept => .ok kept
  | m :: rest, kept =>
    match D.DatastorePath m db with
    | .error pErr => .error pErr
    | .ok path =>
      if D.PathMatchRoot h.Handler path name then
        filter.loop D h db name rest (kept ++ [m])
      else
        filter.loop D h db name rest kept

/-- Go `DatastoreHandler.filter`: filter the result set by path for a name
query.  The list is passed by pointer; the list after the call and the error
are returned.  `len(name) == 0` is emptiness of the string. -/
def filter (D : Deps) (h : DatastoreHandler) (ctx : Context) (list : List model.Datastore) :
    List model.Datastore × Option Error :=
  if list.length < 2 then
    (list, none)
  else
    let name := ctx.Query D.NameParam
    if name.length = 0 then
      (list, none)
    else if (strings.Split name '/').length < 2 then
      (list, none)
    else
      let db := h.Handler.DB
      match filter.loop D h db name list [] with
      | .error err => (list, some err)
      | .ok kept => (kept, none)

end DatastoreHandler

namespace FolderHandler

open http

/-- Go `FolderHandler.Get`: get a specific REST resource. -/
def Get (D : Deps) (h : FolderHandler) (ctx : Context) : Response Object :=
  let w : Response Object := Response.init
  let (status, base) := D.Prepare h.Handler ctx
  let h : FolderHandler := { h with Handler := base }
  if status ≠ StatusOK then
    w.Status status
  else
    let m : model.Folder := { model.Folder.zero with Base := { ID := ctx.Param FolderParam } }
    let db := h.Handler.DB
    match db.GetFolder m with
    | .error err =>
      if errors.IsNotFound err then
        w.Status StatusNotFound
      else
        w.Status StatusInternalServerError
    | .ok m =>
      let r := Folder.zero.With m
      match D.FolderPath m db with
      | .error _ => w.Status StatusInternalServerError
      | .ok path =>
        let r := { r with Resource := { r.Resource with Path := path } }
        let r := r.Link D h.Handler.Provider
        let content := r.Content true
        w.JSON StatusOK content

end FolderHandler

end vsphere

/-! ## Vocabulary for the statements about `TreeHandler.Tree` -/

namespace ovirt.TreeHandler

open model

/-- The node builder `TreeHandler.Tree` puts in the tree it builds with: detail
is flagged for the VM kind only, with the value of the request's detail flag. -/
def Tree.nodeBuilder (h : TreeHandler) : NodeBuilder :=
  { handler := h.Handler
    detail := fun k => if k = VmKind then some h.Handler.Detail else none }

/-- The `Build` call the loop of `TreeHandler.Tree` makes for a data center. -/
def Tree.call (build : BuildFn) (h : TreeHandler) (db : DB) (dc : model.DataCenter) :
    BuildCall :=
  let res :=
    build { NodeBuilder := Tree.nodeBuilder h } (Model.DataCenter dc)
      { detail := h.Handler.Detail, db := db }
  { tree := { NodeBuilder := Tree.nodeBuilder h }
    root := Model.DataCenter dc
    navigator := { detail := h.Handler.Detail, db := db }
    result := res.1
    reads := res.2 }

/-- Kind and object of a node, the part of a top-level node the handler sets. -/
def Tree.facet (node : TreeNode) : String × Object :=
  (node.Kind, node.Object)

/-- The handler as `TreeHandler.Prepare` leaves it for the request. -/
def prepared (D : Deps) (h : TreeHandler) (ctx : Context) : TreeHandler :=
  (h.Prepare D ctx Response.init).2.1

end ovirt.TreeHandler

/-! ## Vocabulary for the statements about the item handlers and the filter -/

/-- The record `HostHandler.Get` passes to the store: only the key is set, to
the host parameter of the route. -/
def ovirt.HostHandler.key (ctx : Context) : ovirt.model.Host :=
  { ovirt.model.Host.zero with Base := { ID := ctx.Param ovirt.HostParam } }

/-- The record `DatastoreHandler.Get` passes to the store. -/
def vsphere.DatastoreHandler.key (ctx : Context) : vsphere.model.Datastore :=
  { vsphere.model.Datastore.zero with Base := { ID := ctx.Param vsphere.DatastoreParam } }

/-- The record `FolderHandler.Get` passes to the store. -/
def vsphere.FolderHandler.key (ctx : Context) : vsphere.model.Folder :=
  { vsphere.model.Folder.zero with Base := { ID := ctx.Param vsphere.FolderParam } }

/-- The datastore resource `DatastoreHandler.Get` answers for a record and its
resolved path. -/
def vsphere.DatastoreHandler.resource (D : vsphere.Deps) (p : Provider)
    (m : vsphere.model.Datastore) (path : String) : vsphere.Datastore :=
  vsphere.Datastore.Link D
    { vsphere.Datastore.zero.With m with
      Resource := { (vsphere.Datastore.zero.With m).Resource with Path := path } } p

/-- The folder resource `FolderHandler.Get` answers for a record and its
resolved path. -/
def vsphere.FolderHandler.resource (D : vsphere.Deps) (p : Provider)
    (m : vsphere.model.Folder) (path : String) : vsphere.Folder :=
  vsphere.Folder.Link D
    { vsphere.Folder.zero.With m with
      Resource := { (vsphere.Folder.zero.With m).Resource with Path := path } } p

/-- The inventory path of the datastore resolves and matches the name of the
query (`PathMatchRoot`). -/
def vsphere.DatastoreHandler.pathMatch (D : vsphere.Deps) (h : vsphere.DatastoreHandler)
    (name : String) (m : vsphere.model.Datastore) : Bool :=
  match D.DatastorePath m h.Handler.DB with
  | .ok path => D.PathMatchRoot h.Handler path name
  | .error _ => false

/-! ## Fixtures

A small inventory used to evaluate the definitions: data centers `dc1` and
`dc2`; cluster `c1` in `dc1`; host `h1` and VM `v1` in `c1`. -/

namespace ovirt.fixture

open model

def dc1 : model.DataCenter := { Base := { ID := "dc1" } }
def dc2 : model.DataCenter := { Base := { ID := "dc2" } }
def c1 : model.Cluster := { Base := { ID := "c1" }, DataCenter := "dc1" }
def h1 : model.Host := { model.Host.zero with Base := { ID := "h1" }, Cluster := "c1" }
def v1 : model.VM := { Base := { ID := "v1" }, Cluster := "c1" }

/-- Rows whose column equals the value of the predicate; all rows without one. -/
def select {α : Type} (rows : List α) (column : α → String) (o : ListOptions) : List α :=
  match o.Predicate with
  | some p => rows.filter (fun row => column row = p.Value)
  | none => rows

/-- A store in which every read succeeds. -/
def db : DB :=
  { ListDataCenter := fun _ => .ok [dc1, dc2]
    ListCluster := fun o => .ok (select [c1] (fun c => c.DataCenter) o)
    ListHost := fun o => .ok (select [h1] (fun x => x.Cluster) o)
    ListVM := fun o => .ok (select [v1] (fun x => x.Cluster) o)
    GetHost := fun m => if m.Base.ID = "h1" then .ok h1 else .error Error.NotFound }

/-- The same store, except that listing the clusters of `dc2` fails. -/
def dbDown : DB :=
  { db with
    ListCluster := fun o =>
      if o.Predicate = some { Field := "DataCenter", Value := "dc2" } then
        .error (Error.Other "store down")
      else
        db.ListCluster o }

/-- The same store, except that listing VMs fails. -/
def dbNoVM : DB :=
  { db with ListVM := fun _ => .error (Error.Other "vm table locked") }

def provider : Provider := { UID := "p1" }

def handler (db : DB) (detail watch : Bool) : Handler :=
  { Provider := provider, DB := db, Detail := detail, WatchRequest := watch }

/-- Dependencies for the fixture: `Prepare` accepts the request and leaves the
handler as configured; `Link` joins the route and the parameter values. -/
def deps : Deps :=
  { Prepare := fun h _ => (http.StatusOK, h)
    Link := fun root ps => ps.foldl (fun acc kv => acc ++ "/" ++ kv.2) root
    ProviderRoot := "providers/ovirt/:provider"
    ProviderParam := "provider"
    MaxDetail := 9
    ItemRoot := fun kind => "providers/ovirt/:provider/" ++ kind
    ItemParam := fun kind => kind }

def ctx : Context := { Param := fun _ => "h1", Query := fun _ => "" }

def builder (detail : Bool) : NodeBuilder :=
  { handler := handler db detail false
    detail := fun k => if k = VmKind then some detail else none }

/-- A node to act as parent: the reference node of cluster `c1`. -/
def parent : TreeNode :=
  .mk none ClusterKind (Object.Resource { ID := "c1", SelfLink := "" }) []

/-- A record of a model type for which the node builder has no case. -/
def diskProfile : Model := .Other "DiskProfile" "dp1"

end ovirt.fixture

namespace vsphere.fixture

/-- Two datastores of the same name in different data centers, and a folder. -/
def ds1 : model.Datastore := { model.Datastore.zero with Base := { ID := "ds1" } }
def ds2 : model.Datastore := { model.Datastore.zero with Base := { ID := "ds2" } }
def f1 : model.Folder := { model.Folder.zero with Base := { ID := "f1" }, Datacenter := "dc1" }

def db : model.DB :=
  { GetDatastore := fun m =>
      if m.Base.ID = "ds1" then .ok ds1
      else if m.Base.ID = "ds2" then .ok ds2
      else .error Error.NotFound
    GetFolder := fun m => if m.Base.ID = "f1" then .ok f1 else .error Error.NotFound }

def provider : Provider := { UID := "p1" }

def handler : Handler :=
  { Provider := provider, DB := db, Detail := false, WatchRequest := false }

/-- Dependencies for the fixture: `Prepare` accepts the request; a path matches
a name when it ends with it; `ds1` is in `dc1`, `ds2` in `dc2`. -/
def deps : Deps :=
  { Prepare := fun h _ => (http.StatusOK, h)
    PathMatchRoot := fun _ absolute relative => relative.toList.isSuffixOf absolute.toList
    Link := fun root ps => ps.foldl (fun acc kv => acc ++ "/" ++ kv.2) root
    DatastorePath := fun m _ =>
      if m.Base.ID = "ds1" then .ok "/dc1/datastore/shared"
      else if m.Base.ID = "ds2" then .ok "/dc2/datastore/shared"
      else .error (Error.Other "no path")
    FolderPath := fun m _ =>
      if m.Base.ID = "f1" then .ok "/dc1/vm/f1" else .error (Error.Other "no path")
    ProviderRoot := "providers/vsphere/:provider"
    ProviderParam := "provider"
    NameParam := "name" }

/-- A request for item `id`, with `name` as the name of the query. -/
def ctx (id name : String) : Context :=
  { Param := fun _ => id, Query := fun k => if k = "name" then name else "" }

end vsphere.fixture

/-! ## Properties of `BranchNavigator.Next` -/

namespace ovirt

open model

theorem BranchNavigator.Next_DataCenter (n : BranchNavigator) (dc : model.DataCenter) :
    n.Next (.DataCenter dc) =
      { r := match (n.listCluster dc).1 with
          | .ok list => list.map Model.Cluster
          | .error _ => []
        err := (n.listCluster dc).1.err?
        reads := [(n.listCluster dc).2] } := by
  unfold BranchNavigator.Next
  rcases h : n.listCluster dc with ⟨res, q⟩
  cases res <;> simp [h, Except.err?]

theorem BranchNavigator.Next_Cluster_host_error (n : BranchNavigator) (c : model.Cluster)
    (e : Error) (h : (n.listHost c).1 = .error e) :
    n.Next (.Cluster c) = { r := [], err := some e, reads := [(n.listHost c).2] } := by
  unfold BranchNavigator.Next
  rcases hq : n.listHost c with ⟨res, q⟩
  rw [hq] at h
  simp only at h
  subst h
  simp [hq]

theorem BranchNavigator.Next_Cluster_host_ok (n : BranchNavigator) (c : model.Cluster)
    (hosts : List model.Host) (h : (n.listHost c).1 = .ok hosts) :
    n.Next (.Cluster c) =
      { r := match (n.listVM c).1 with
          | .ok vms => hosts.map Model.Host ++ vms.map Model.VM
          | .error _ => hosts.map Model.Host
        err := (n.listVM c).1.err?
        reads := [(n.listHost c).2, (n.listVM c).2] } := by
  unfold BranchNavigator.Next
  rcases hq : n.listHost c with ⟨res, q⟩
  rw [hq] at h
  simp only at h
  subst h
  rcases hv : n.listVM c with ⟨resv, qv⟩
  cases resv <;> simp [hq, hv, Except.err?]

theorem BranchNavigator.Next_leaf (n : BranchNavigator) (p : Model)
    (hdc : ∀ dc, p ≠ .DataCenter dc) (hc : ∀ c, p ≠ .Cluster c) :
    n.Next p = { r := [], err := none, reads := [] } := by
  unfold BranchNavigator.Next
  cases p with
  | DataCenter dc => exact absurd rfl (hdc dc)
  | Cluster c => exact absurd rfl (hc c)
  | _ => rfl

/-- C2: over a store in which every list read succeeds, `BranchNavigator.Next`
returns no error and returns exactly, in the order of the store: for a data
center the clusters listed for `DataCenter = ID`; for a cluster the hosts listed
for `Cluster = ID` followed by the VMs listed for `Cluster = ID` (detail 1 or 0
as the navigator is configured), so `#hosts + #VMs` records; for a record of any
other type the empty sequence. -/
theorem BranchNavigator.Next_children (n : BranchNavigator)
    (hC : ∀ o, ∃ l, n.db.ListCluster o = .ok l)
    (hH : ∀ o, ∃ l, n.db.ListHost o = .ok l)
    (hV : ∀ o, ∃ l, n.db.ListVM o = .ok l) :
    (∀ p, (n.Next p).err = none) ∧
    (∀ dc : model.DataCenter, ∃ clusters,
      n.db.ListCluster { Predicate := some { Field := "DataCenter", Value := dc.Base.ID } }
        = .ok clusters ∧
      (n.Next (.DataCenter dc)).r = clusters.map Model.Cluster) ∧
    (∀ c : model.Cluster, ∃ hosts vms,
      n.db.ListHost { Predicate := some { Field := "Cluster", Value := c.Base.ID } }
        = .ok hosts ∧
      n.db.ListVM { Predicate := some { Field := "Cluster", Value := c.Base.ID },
                    Detail := if n.detail then 1 else 0 } = .ok vms ∧
      (n.Next (.Cluster c)).r = hosts.map Model.Host ++ vms.map Model.VM ∧
      (n.Next (.Cluster c)).r.length = hosts.length + vms.length) ∧
    (∀ p, (∀ dc, p ≠ .DataCenter dc) → (∀ c, p ≠ .Cluster c) → (n.Next p).r = []) := by
  have hdc : ∀ dc : model.DataCenter, ∃ clusters,
      n.db.ListCluster { Predicate := some { Field := "DataCenter", Value := dc.Base.ID } }
        = .ok clusters ∧
      n.Next (.DataCenter dc) = { r := clusters.map Model.Cluster, err := none,
                                  reads := [(n.listCluster dc).2] } := by
    intro dc
    obtain ⟨l, hl⟩ := hC { Predicate := some { Field := "DataCenter", Value := dc.Base.ID } }
    refine ⟨l, hl, ?_⟩
    rw [BranchNavigator.Next_DataCenter]
    have : (n.listCluster dc).1 = .ok l := by simp [BranchNavigator.listCluster, hl]
    simp [this, Except.err?]
  have hcl : ∀ c : model.Cluster, ∃ hosts vms,
      n.db.ListHost { Predicate := some { Field := "Cluster", Value := c.Base.ID } }
        = .ok hosts ∧
      n.db.ListVM { Predicate := some { Field := "Cluster", Value := c.Base.ID },
                    Detail := if n.detail then 1 else 0 } = .ok vms ∧
      n.Next (.Cluster c) = { r := hosts.map Model.Host ++ vms.map Model.VM, err := none,
                              reads := [(n.listHost c).2, (n.listVM c).2] } := by
    intro c
    obtain ⟨hosts, hh⟩ := hH { Predicate := some { Field := "Cluster", Value := c.Base.ID } }
    obtain ⟨vms, hv⟩ := hV { Predicate := some { Field := "Cluster", Value := c.Base.ID },
                             Detail := if n.detail then 1 else 0 }
    refine ⟨hosts, vms, hh, hv, ?_⟩
    have h1 : (n.listHost c).1 = .ok hosts := by simp [BranchNavigator.listHost, hh]
    have h2 : (n.listVM c).1 = .ok vms := by simp [BranchNavigator.listVM, hv]
    rw [BranchNavigator.Next_Cluster_host_ok n c hosts h1]
    simp [h2, Except.err?]
  refine ⟨?_, ?_, ?_, ?_⟩
  · intro p
    cases p with
    | DataCenter dc =>
      obtain ⟨_, _, h⟩ := hdc dc
      rw [h]
    | Cluster c =>
      obtain ⟨_, _, _, _, h⟩ := hcl c
      rw [h]
    | _ => rfl
  · intro dc
    obtain ⟨l, hl, h⟩ := hdc dc
    exact ⟨l, hl, by rw [h]⟩
  · intro c
    obtain ⟨hosts, vms, hh, hv, h⟩ := hcl c
    exact ⟨hosts, vms, hh, hv, by rw [h], by rw [h]; simp⟩
  · intro p hdc hc
    rw [BranchNavigator.Next_leaf n p hdc hc]

/-- C3: `BranchNavigator.Next` returns an error exactly when one of the store
reads it issues fails, and the error is that of the first failing read.  The
reads issued are: for a data center the cluster read; for a cluster the host
read and then, unless the host read failed, the VM read; for a record of any
other type none, hence never an error. -/
theorem BranchNavigator.Next_error (n : BranchNavigator) :
    (∀ p, (n.Next p).err = ((n.Next p).reads.filterMap (fun q => q.err)).head?) ∧
    (∀ p, (n.Next p).err.isSome ↔ ∃ q ∈ (n.Next p).reads, q.err.isSome) ∧
    (∀ dc : model.DataCenter,
      (n.Next (.DataCenter dc)).reads =
        [{ Kind := ClusterKind
           Options := { Predicate := some { Field := "DataCenter", Value := dc.Base.ID } }
           err := (n.db.ListCluster
             { Predicate := some { Field := "DataCenter", Value := dc.Base.ID } }).err? }]) ∧
    (∀ c : model.Cluster,
      (n.Next (.Cluster c)).reads =
        let hostRead : Read :=
          { Kind := HostKind
            Options := { Predicate := some { Field := "Cluster", Value := c.Base.ID } }
            err := (n.db.ListHost
              { Predicate := some { Field := "Cluster", Value := c.Base.ID } }).err? }
        let vmRead : Read :=
          { Kind := VmKind
            Options := { Predicate := some { Field := "Cluster", Value := c.Base.ID },
                         Detail := if n.detail then 1 else 0 }
            err := (n.db.ListVM
              { Predicate := some { Field := "Cluster", Value := c.Base.ID },
                Detail := if n.detail then 1 else 0 }).err? }
        if hostRead.err.isSome then [hostRead] else [hostRead, vmRead]) ∧
    (∀ p, (∀ dc, p ≠ .DataCenter dc) → (∀ c, p ≠ .Cluster c) →
      (n.Next p).reads = [] ∧ (n.Next p).err = none) := by
  have key : ∀ p, (n.Next p).err = ((n.Next p).reads.filterMap (fun q => q.err)).head? := by
    intro p
    cases p with
    | DataCenter dc =>
      rw [BranchNavigator.Next_DataCenter]
      cases h : n.db.ListCluster
          { Predicate := some { Field := "DataCenter", Value := dc.Base.ID } } <;>
        simp [BranchNavigator.listCluster, h, Except.err?]
    | Cluster c =>
      cases h : n.db.ListHost { Predicate := some { Field := "Cluster", Value := c.Base.ID } } with
      | error e =>
        rw [BranchNavigator.Next_Cluster_host_error n c e (by simp [BranchNavigator.listHost, h])]
        simp [BranchNavigator.listHost, h, Except.err?]
      | ok hosts =>
        rw [BranchNavigator.Next_Cluster_host_ok n c hosts (by simp [BranchNavigator.listHost, h])]
        cases hv : n.db.ListVM { Predicate := some { Field := "Cluster", Value := c.Base.ID },
                                 Detail := if n.detail then 1 else 0 } <;>
          simp [BranchNavigator.listHost, BranchNavigator.listVM, h, hv, Except.err?]
    | _ => rfl
  refine ⟨key, ?_, ?_, ?_, ?_⟩
  · intro p
    rw [key p]
    generalize (n.Next p).reads = reads
    induction reads with
    | nil => simp
    | cons q rest ih =>
      cases hq : q.err with
      | none =>
        have : List.filterMap (fun q => q.err) (q :: rest)
            = List.filterMap (fun q => q.err) rest := by
          simp [List.filterMap_cons, hq]
        rw [this, ih]
        simp [hq]
      | some e =>
        have : List.filterMap (fun q => q.err) (q :: rest)
            = e :: List.filterMap (fun q => q.err) rest := by
          simp [List.filterMap_cons, hq]
        rw [this]
        simp [hq]
  · intro dc
    rw [BranchNavigator.Next_DataCenter]
    simp [BranchNavigator.listCluster]
  · intro c
    cases h : n.db.ListHost { Predicate := some { Field := "Cluster", Value := c.Base.ID } } with
    | error e =>
      rw [BranchNavigator.Next_Cluster_host_error n c e (by simp [BranchNavigator.listHost, h])]
      simp [BranchNavigator.listHost, h, Except.err?]
    | ok hosts =>
      rw [BranchNavigator.Next_Cluster_host_ok n c hosts (by simp [BranchNavigator.listHost, h])]
      simp [BranchNavigator.listHost, BranchNavigator.listVM, h, Except.err?]
  · intro p hdc hc
    rw [BranchNavigator.Next_leaf n p hdc hc]
    exact ⟨rfl, rfl⟩

/-! ## Properties of `NodeBuilder.Node` -/

theorem NodeBuilder.Node_DataCenter (D : Deps) (r : NodeBuilder) (parent : Option TreeNode)
    (x : model.DataCenter) :
    r.Node D parent (.DataCenter x) =
      some (.mk parent DataCenterKind
        (((DataCenter.zero.With x).Link D r.handler.Provider).Content
          (r.withDetail DataCenterKind)) []) := by
  simp [NodeBuilder.Node, ToKind]

theorem NodeBuilder.Node_Cluster (D : Deps) (r : NodeBuilder) (parent : Option TreeNode)
    (x : model.Cluster) :
    r.Node D parent (.Cluster x) =
      some (.mk parent ClusterKind
        (((Cluster.zero.With x).Link D r.handler.Provider).Content
          (r.withDetail ClusterKind)) []) := by
  simp [NodeBuilder.Node, ToKind, DataCenterKind, ClusterKind]

theorem NodeBuilder.Node_Host (D : Deps) (r : NodeBuilder) (parent : Option TreeNode)
    (x : model.Host) :
    r.Node D parent (.Host x) =
      some (.mk parent HostKind
        (((Host.zero.With x).Link D r.handler.Provider).Content
          (r.withDetail HostKind)) []) := by
  simp [NodeBuilder.Node, ToKind, DataCenterKind, ClusterKind, HostKind]

theorem NodeBuilder.Node_VM (D : Deps) (r : NodeBuilder) (parent : Option TreeNode)
    (x : model.VM) :
    r.Node D parent (.VM x) =
      some (.mk parent VmKind
        (((VM.zero.With x).Link D r.handler.Provider).Content
          (r.withDetail VmKind)) []) := by
  simp [NodeBuilder.Node, ToKind, DataCenterKind, ClusterKind, HostKind, VmKind]

theorem NodeBuilder.Node_Network (D : Deps) (r : NodeBuilder) (parent : Option TreeNode)
    (x : model.Network) :
    r.Node D parent (.Network x) =
      some (.mk parent NetKind
        (((Network.zero.With x).Link D r.handler.Provider).Content
          (r.withDetail NetKind)) []) := by
  simp [NodeBuilder.Node, ToKind, DataCenterKind, ClusterKind, HostKind, VmKind, NetKind]

theorem NodeBuilder.Node_StorageDomain (D : Deps) (r : NodeBuilder) (parent : Option TreeNode)
    (x : model.StorageDomain) :
    r.Node D parent (.StorageDomain x) =
      some (.mk parent StorageKind
        (((StorageDomain.zero.With x).Link D r.handler.Provider).Content
          (r.withDetail StorageKind)) []) := by
  simp [NodeBuilder.Node, ToKind, DataCenterKind, ClusterKind, HostKind, VmKind, NetKind,
    StorageKind]

theorem NodeBuilder.Node_Other (D : Deps) (r : NodeBuilder) (parent : Option TreeNode)
    (t id : String) :
    r.Node D parent (.Other t id) =
      if t ∈ [DataCenterKind, ClusterKind, HostKind, VmKind, NetKind, StorageKind] then none
      else some TreeNode.zero := by
  simp only [NodeBuilder.Node, ToKind, List.mem_cons, List.mem_singleton, List.not_mem_nil,
    or_false]
  by_cases h1 : t = DataCenterKind
  · simp [h1]
  by_cases h2 : t = ClusterKind
  · simp [h1, h2]
  by_cases h3 : t = HostKind
  · simp [h1, h2, h3]
  by_cases h4 : t = VmKind
  · simp [h1, h2, h3, h4]
  by_cases h5 : t = NetKind
  · simp [h1, h2, h3, h4, h5]
  by_cases h6 : t = StorageKind
  · simp [h1, h2, h3, h4, h5, h6]
  simp [h1, h2, h3, h4, h5, h6]

theorem NodeBuilder.withDetail_eq (r : NodeBuilder) (kind : String) :
    r.withDetail kind = decide (r.detail kind = some true) := by
  unfold NodeBuilder.withDetail
  cases h : r.detail kind with
  | none => simp
  | some b => cases b <;> simp

/-- C4 (counterexample): for a record of a type the builder has no case for,
the node returned under a non-nil parent is not linked to that parent. -/
theorem NodeBuilder.Node_unknown_kind_not_linked :
    ¬ ∃ node,
      (fixture.builder false).Node fixture.deps (some fixture.parent) fixture.diskProfile
        = some node ∧
      node.Parent = some fixture.parent := by
  rintro ⟨node, hnode, hparent⟩
  have h : (fixture.builder false).Node fixture.deps (some fixture.parent) fixture.diskProfile
      = some TreeNode.zero := by
    unfold fixture.diskProfile
    rw [NodeBuilder.Node_Other, if_neg (by decide)]
  rw [h] at hnode
  cases hnode
  simp [TreeNode.zero, TreeNode.Parent] at hparent

/-- C4 (amended): for every parent and every record of one of the six model
types the builder knows, `NodeBuilder.Node` returns a node whose `Parent` is
the parent passed in; for a record whose kind is none of the six it returns
the empty node, whose `Parent` is nil whatever parent was passed. -/
theorem NodeBuilder.Node_parent (D : Deps) (r : NodeBuilder) (parent : Option TreeNode)
    (m : Model) :
    ((∀ t id, m ≠ .Other t id) →
      ∃ node, r.Node D parent m = some node ∧ node.Parent = parent) ∧
    (ToKind m ∉ [DataCenterKind, ClusterKind, HostKind, VmKind, NetKind, StorageKind] →
      r.Node D parent m = some TreeNode.zero ∧ TreeNode.zero.Parent = none) := by
  constructor
  · intro hm
    cases m with
    | DataCenter x => exact ⟨_, NodeBuilder.Node_DataCenter D r parent x, rfl⟩
    | Cluster x => exact ⟨_, NodeBuilder.Node_Cluster D r parent x, rfl⟩
    | Host x => exact ⟨_, NodeBuilder.Node_Host D r parent x, rfl⟩
    | VM x => exact ⟨_, NodeBuilder.Node_VM D r parent x, rfl⟩
    | Network x => exact ⟨_, NodeBuilder.Node_Network D r parent x, rfl⟩
    | StorageDomain x => exact ⟨_, NodeBuilder.Node_StorageDomain D r parent x, rfl⟩
    | Other t id => exact absurd rfl (hm t id)
  · intro hk
    refine ⟨?_, rfl⟩
    cases m with
    | Other t id =>
      rw [NodeBuilder.Node_Other]
      simp only [ToKind] at hk
      rw [if_neg hk]
    | _ => simp [ToKind] at hk

/-- Witness of `NodeBuilder.Node_parent`: host `h1` is linked under the parent,
the disk profile comes back as the empty node. -/
theorem NodeBuilder.Node_parent_witness :
    (∃ node,
      (fixture.builder false).Node fixture.deps (some fixture.parent) (.Host fixture.h1)
        = some node ∧
      node.Parent = some fixture.parent) ∧
    ((fixture.builder false).Node fixture.deps (some fixture.parent) fixture.diskProfile
        = some TreeNode.zero ∧
      TreeNode.zero.Parent = none) :=
  ⟨(NodeBuilder.Node_parent fixture.deps (fixture.builder false) (some fixture.parent)
      (.Host fixture.h1)).1 (by intro t id h; cases h),
   (NodeBuilder.Node_parent fixture.deps (fixture.builder false) (some fixture.parent)
      fixture.diskProfile).2 (by decide)⟩

/-- C5: for a record of each known kind and every detail map, the `Object` of
the node `NodeBuilder.Node` returns is the full resource when the map maps the
kind to true, and the base `Resource` of that resource otherwise (kind mapped
to false, or not a key of the map). -/
theorem NodeBuilder.Node_object (D : Deps) (r : NodeBuilder) (parent : Option TreeNode) :
    (∀ x : model.DataCenter, ∃ node, r.Node D parent (.DataCenter x) = some node ∧
      node.Object =
        if r.detail DataCenterKind = some true then
          Object.DataCenter ((DataCenter.zero.With x).Link D r.handler.Provider)
        else
          Object.Resource ((DataCenter.zero.With x).Link D r.handler.Provider).Resource) ∧
    (∀ x : model.Cluster, ∃ node, r.Node D parent (.Cluster x) = some node ∧
      node.Object =
        if r.detail ClusterKind = some true then
          Object.Cluster ((Cluster.zero.With x).Link D r.handler.Provider)
        else
          Object.Resource ((Cluster.zero.With x).Link D r.handler.Provider).Resource) ∧
    (∀ x : model.Host, ∃ node, r.Node D parent (.Host x) = some node ∧
      node.Object =
        if r.detail HostKind = some true then
          Object.Host ((Host.zero.With x).Link D r.handler.Provider)
        else
          Object.Resource ((Host.zero.With x).Link D r.handler.Provider).Resource) ∧
    (∀ x : model.VM, ∃ node, r.Node D parent (.VM x) = some node ∧
      node.Object =
        if r.detail VmKind = some true then
          Object.VM ((VM.zero.With x).Link D r.handler.Provider)
        else
          Object.Resource ((VM.zero.With x).Link D r.handler.Provider).Resource) ∧
    (∀ x : model.Network, ∃ node, r.Node D parent (.Network x) = some node ∧
      node.Object =
        if r.detail NetKind = some true then
          Object.Network ((Network.zero.With x).Link D r.handler.Provider)
        else
          Object.Resource ((Network.zero.With x).Link D r.handler.Provider).Resource) ∧
    (∀ x : model.StorageDomain, ∃ node, r.Node D parent (.StorageDomain x) = some node ∧
      node.Object =
        if r.detail StorageKind = some true then
          Object.StorageDomain ((StorageDomain.zero.With x).Link D r.handler.Provider)
        else
          Object.Resource ((StorageDomain.zero.With x).Link D r.handler.Provider).Resource) := by
  refine ⟨?_, ?_, ?_, ?_, ?_, ?_⟩
  · intro x
    refine ⟨_, NodeBuilder.Node_DataCenter D r parent x, ?_⟩
    simp only [TreeNode.Object, NodeBuilder.withDetail_eq, DataCenter.Content]
    by_cases h : r.detail DataCenterKind = some true <;> simp [h]
  · intro x
    refine ⟨_, NodeBuilder.Node_Cluster D r parent x, ?_⟩
    simp only [TreeNode.Object, NodeBuilder.withDetail_eq, Cluster.Content]
    by_cases h : r.detail ClusterKind = some true <;> simp [h]
  · intro x
    refine ⟨_, NodeBuilder.Node_Host D r parent x, ?_⟩
    simp only [TreeNode.Object, NodeBuilder.withDetail_eq, Host.Content]
    by_cases h : r.detail HostKind = some true <;> simp [h]
  · intro x
    refine ⟨_, NodeBuilder.Node_VM D r parent x, ?_⟩
    simp only [TreeNode.Object, NodeBuilder.withDetail_eq, VM.Content]
    by_cases h : r.detail VmKind = some true <;> simp [h]
  · intro x
    refine ⟨_, NodeBuilder.Node_Network D r parent x, ?_⟩
    simp only [TreeNode.Object, NodeBuilder.withDetail_eq, Network.Content]
    by_cases h : r.detail NetKind = some true <;> simp [h]
  · intro x
    refine ⟨_, NodeBuilder.Node_StorageDomain D r parent x, ?_⟩
    simp only [TreeNode.Object, NodeBuilder.withDetail_eq, StorageDomain.Content]
    by_cases h : r.detail StorageKind = some true <;> simp [h]

/-! ## The detail policy and the shape of the tree -/

theorem NodeBuilder.Node_shape (D : Deps) (handler : Handler) (d1 d2 : String → Option Bool)
    (parent : Option TreeNode) (m : Model) :
    ∃ kind : String, ∃ o1 o2 : Object,
      (NodeBuilder.Node D { handler := handler, detail := d1 } parent m = none ∧
        NodeBuilder.Node D { handler := handler, detail := d2 } parent m = none) ∨
      (NodeBuilder.Node D { handler := handler, detail := d1 } parent m
          = some TreeNode.zero ∧
        NodeBuilder.Node D { handler := handler, detail := d2 } parent m
          = some TreeNode.zero) ∨
      (NodeBuilder.Node D { handler := handler, detail := d1 } parent m
          = some (.mk parent kind o1 []) ∧
        NodeBuilder.Node D { handler := handler, detail := d2 } parent m
          = some (.mk parent kind o2 [])) := by
  cases m with
  | DataCenter x =>
    exact ⟨_, _, _, Or.inr (Or.inr ⟨NodeBuilder.Node_DataCenter .., NodeBuilder.Node_DataCenter ..⟩)⟩
  | Cluster x =>
    exact ⟨_, _, _, Or.inr (Or.inr ⟨NodeBuilder.Node_Cluster .., NodeBuilder.Node_Cluster ..⟩)⟩
  | Host x =>
    exact ⟨_, _, _, Or.inr (Or.inr ⟨NodeBuilder.Node_Host .., NodeBuilder.Node_Host ..⟩)⟩
  | VM x =>
    exact ⟨_, _, _, Or.inr (Or.inr ⟨NodeBuilder.Node_VM .., NodeBuilder.Node_VM ..⟩)⟩
  | Network x =>
    exact ⟨_, _, _, Or.inr (Or.inr ⟨NodeBuilder.Node_Network .., NodeBuilder.Node_Network ..⟩)⟩
  | StorageDomain x =>
    exact ⟨_, _, _, Or.inr (Or.inr
      ⟨NodeBuilder.Node_StorageDomain .., NodeBuilder.Node_StorageDomain ..⟩)⟩
  | Other t id =>
    refine ⟨"", Object.nil, Object.nil, ?_⟩
    rw [NodeBuilder.Node_Other, NodeBuilder.Node_Other]
    by_cases h : t ∈ [DataCenterKind, ClusterKind, HostKind, VmKind, NetKind, StorageKind]
    · exact Or.inl (by rw [if_pos h]; exact ⟨rfl, rfl⟩)
    · exact Or.inr (Or.inl (by rw [if_neg h]; exact ⟨rfl, rfl⟩))

theorem BranchNavigator.listCluster_detail (db : DB) (b1 b2 : Bool) (dc : model.DataCenter) :
    BranchNavigator.listCluster { db := db, detail := b1 } dc
      = BranchNavigator.listCluster { db := db, detail := b2 } dc := rfl

/-- C7: the detail policy does not change the shape of the tree.  Under any
two detail maps `NodeBuilder.Node` returns nodes with the same `Kind`, the same
`Parent` and the same, empty, `Children`.  Under either setting of the
navigator's detail flag `BranchNavigator.Next` issues reads of the same kinds
with the same predicates in the same order, and the reads other than the VM
read are identical.  Over a store whose VM read answers the same identities
whatever the `Detail` option, the children have the same kinds and IDs. -/
theorem detail_preserves_shape (D : Deps) (handler : Handler) (d1 d2 : String → Option Bool)
    (db : DB) (b1 b2 : Bool) :
    (∀ (parent : Option TreeNode) (m : Model),
      (NodeBuilder.Node D { handler := handler, detail := d1 } parent m).map TreeNode.Kind
        = (NodeBuilder.Node D { handler := handler, detail := d2 } parent m).map TreeNode.Kind ∧
      (NodeBuilder.Node D { handler := handler, detail := d1 } parent m).map TreeNode.Parent
        = (NodeBuilder.Node D { handler := handler, detail := d2 } parent m).map TreeNode.Parent ∧
      (NodeBuilder.Node D { handler := handler, detail := d1 } parent m).map TreeNode.Children
        = (NodeBuilder.Node D { handler := handler, detail := d2 } parent m).map
            TreeNode.Children ∧
      (∀ node, NodeBuilder.Node D { handler := handler, detail := d1 } parent m = some node →
        node.Children = [])) ∧
    (∀ p : Model,
      ((BranchNavigator.Next { db := db, detail := b1 } p).reads.map
          (fun q => (q.Kind, q.Options.Predicate))
        = (BranchNavigator.Next { db := db, detail := b2 } p).reads.map
          (fun q => (q.Kind, q.Options.Predicate))) ∧
      ((BranchNavigator.Next { db := db, detail := b1 } p).reads.filter
          (fun q => q.Kind ≠ VmKind)
        = (BranchNavigator.Next { db := db, detail := b2 } p).reads.filter
          (fun q => q.Kind ≠ VmKind))) ∧
    ((∀ o1 o2 : ListOptions, o1.Predicate = o2.Predicate →
        (db.ListVM o1).toOption.map (List.map (fun v => v.Base.ID))
          = (db.ListVM o2).toOption.map (List.map (fun v => v.Base.ID))) →
      ∀ p : Model,
        (BranchNavigator.Next { db := db, detail := b1 } p).r.map (fun m => (ToKind m, m.ID))
          = (BranchNavigator.Next { db := db, detail := b2 } p).r.map
              (fun m => (ToKind m, m.ID))) := by
  refine ⟨?_, ?_, ?_⟩
  · intro parent m
    obtain ⟨kind, o1, o2, h | h | h⟩ := NodeBuilder.Node_shape D handler d1 d2 parent m
    · rw [h.1, h.2]; simp
    · rw [h.1, h.2]; simp [TreeNode.zero, TreeNode.Children]
    · rw [h.1, h.2]; simp [TreeNode.Kind, TreeNode.Parent, TreeNode.Children]
  · intro p
    cases p with
    | DataCenter dc =>
      rw [BranchNavigator.Next_DataCenter, BranchNavigator.Next_DataCenter,
        BranchNavigator.listCluster_detail db b1 b2 dc]
      exact ⟨rfl, rfl⟩
    | Cluster c =>
      cases h : db.ListHost { Predicate := some { Field := "Cluster", Value := c.Base.ID } } with
      | error e =>
        rw [BranchNavigator.Next_Cluster_host_error _ c e (by simp [BranchNavigator.listHost, h]),
          BranchNavigator.Next_Cluster_host_error _ c e (by simp [BranchNavigator.listHost, h])]
        exact ⟨rfl, rfl⟩
      | ok hosts =>
        rw [BranchNavigator.Next_Cluster_host_ok _ c hosts (by simp [BranchNavigator.listHost, h]),
          BranchNavigator.Next_Cluster_host_ok _ c hosts (by simp [BranchNavigator.listHost, h])]
        simp [BranchNavigator.listHost, BranchNavigator.listVM, HostKind, VmKind]
    | _ => exact ⟨rfl, rfl⟩
  · intro hstore p
    cases p with
    | DataCenter dc =>
      rw [BranchNavigator.Next_DataCenter, BranchNavigator.Next_DataCenter,
        BranchNavigator.listCluster_detail db b1 b2 dc]
    | Cluster c =>
      cases h : db.ListHost { Predicate := some { Field := "Cluster", Value := c.Base.ID } } with
      | error e =>
        rw [BranchNavigator.Next_Cluster_host_error _ c e (by simp [BranchNavigator.listHost, h]),
          BranchNavigator.Next_Cluster_host_error _ c e (by simp [BranchNavigator.listHost, h])]
      | ok hosts =>
        rw [BranchNavigator.Next_Cluster_host_ok _ c hosts (by simp [BranchNavigator.listHost, h]),
          BranchNavigator.Next_Cluster_host_ok _ c hosts (by simp [BranchNavigator.listHost, h])]
        have hs := hstore
          { Predicate := some { Field := "Cluster", Value := c.Base.ID },
            Detail := if b1 then 1 else 0 }
          { Predicate := some { Field := "Cluster", Value := c.Base.ID },
            Detail := if b2 then 1 else 0 } rfl
        simp only [BranchNavigator.listVM]
        cases h1 : db.ListVM { Predicate := some { Field := "Cluster", Value := c.Base.ID },
                               Detail := if b1 then 1 else 0 } with
        | error e1 =>
          cases h2 : db.ListVM { Predicate := some { Field := "Cluster", Value := c.Base.ID },
                                 Detail := if b2 then 1 else 0 } with
          | error e2 => rfl
          | ok vms2 => rw [h1, h2] at hs; simp [Except.toOption] at hs
        | ok vms1 =>
          cases h2 : db.ListVM { Predicate := some { Field := "Cluster", Value := c.Base.ID },
                                 Detail := if b2 then 1 else 0 } with
          | error e2 => rw [h1, h2] at hs; simp [Except.toOption] at hs
          | ok vms2 =>
            rw [h1, h2] at hs
            simp only [Except.toOption, Option.map_some', Option.some.injEq] at hs
            simp only [List.map_append, List.map_map]
            congr 1
            have e : ∀ l : List model.VM,
                List.map ((fun m => (ToKind m, m.ID)) ∘ Model.VM) l
                  = List.map (fun id => (VmKind, id)) (List.map (fun v => v.Base.ID) l) := by
              intro l
              simp [List.map_map, Function.comp_def, ToKind, Model.ID]
            rw [e, e, hs]
    | _ => rfl

/-! ## Properties of `TreeHandler.Tree` -/

namespace TreeHandler

open http

theorem Prepare_body (D : Deps) (h : TreeHandler) (ctx : Context) (w : Response TreeNode) :
    (h.Prepare D ctx w).2.2.body = w.body := by
  unfold TreeHandler.Prepare
  rcases hp : D.Prepare h.Handler ctx with ⟨status, base⟩
  simp only
  split
  · rfl
  · split <;> rfl

theorem Tree.loop_cons_error (D : Deps) (build : BuildFn) (h : TreeHandler) (db : DB)
    (w : Response TreeNode) (dc : model.DataCenter) (rest : List model.DataCenter)
    (content : TreeNode) (log : List BuildCall) (e : Error)
    (he : (Tree.call build h db dc).result = .error e) :
    Tree.loop D build h db w (dc :: rest) content log =
      { response := w.Status StatusInternalServerError
        builds := log ++ [Tree.call build h db dc] } := by
  simp only [Tree.call, Tree.nodeBuilder] at he
  simp only [Tree.loop, Tree.call, Tree.nodeBuilder]
  rcases hb : build
      { NodeBuilder :=
          { handler := h.Handler
            detail := fun k => if k = VmKind then some h.Handler.Detail else none } }
      (Model.DataCenter dc) { detail := h.Handler.Detail, db := db } with ⟨res, reads⟩
  rw [hb] at he
  simp only at he
  subst he
  rfl

theorem Tree.loop_cons_ok (D : Deps) (build : BuildFn) (h : TreeHandler) (db : DB)
    (w : Response TreeNode) (dc : model.DataCenter) (rest : List model.DataCenter)
    (content : TreeNode) (log : List BuildCall) (branch : TreeNode)
    (hok : (Tree.call build h db dc).result = .ok branch) :
    Tree.loop D build h db w (dc :: rest) content log =
      Tree.loop D build h db w rest
        (content.appendChild
          ((branch.setKind DataCenterKind).setObject
            (Object.DataCenter ((DataCenter.zero.With dc).Link D h.Handler.Provider))))
        (log ++ [Tree.call build h db dc]) := by
  simp only [Tree.call, Tree.nodeBuilder] at hok
  simp only [Tree.loop, Tree.call, Tree.nodeBuilder]
  rcases hb : build
      { NodeBuilder :=
          { handler := h.Handler
            detail := fun k => if k = VmKind then some h.Handler.Detail else none } }
      (Model.DataCenter dc) { detail := h.Handler.Detail, db := db } with ⟨res, reads⟩
  rw [hb] at hok
  simp only at hok
  subst hok
  rfl

theorem Tree.loop_spec (D : Deps) (build : BuildFn) (h : TreeHandler) (db : DB)
    (w : Response TreeNode) :
    ∀ (dcs : List model.DataCenter) (content : TreeNode) (log : List BuildCall),
      ((∀ dc ∈ dcs, ∃ node, (Tree.call build h db dc).result = .ok node) ∧
        ∃ content1,
          (Tree.loop D build h db w dcs content log).response = w.JSON StatusOK content1 ∧
          (Tree.loop D build h db w dcs content log).builds
            = log ++ dcs.map (Tree.call build h db) ∧
          content1.Children.map Tree.facet
            = content.Children.map Tree.facet ++
              dcs.map (fun dc =>
                (DataCenterKind,
                  Object.DataCenter ((DataCenter.zero.With dc).Link D h.Handler.Provider)))) ∨
      (∃ pre dc post e,
        dcs = pre ++ dc :: post ∧
        (∀ x ∈ pre, ∃ node, (Tree.call build h db x).result = .ok node) ∧
        (Tree.call build h db dc).result = .error e ∧
        (Tree.loop D build h db w dcs content log).response
          = w.Status StatusInternalServerError ∧
        (Tree.loop D build h db w dcs content log).builds
          = log ++ (pre ++ [dc]).map (Tree.call build h db)) := by
  intro dcs
  induction dcs with
  | nil =>
    intro content log
    left
    refine ⟨by simp, content, ?_, ?_, ?_⟩ <;> simp [Tree.loop]
  | cons dc rest ih =>
    intro content log
    cases hres : (Tree.call build h db dc).result with
    | error e =>
      right
      refine ⟨[], dc, rest, e, rfl, by simp, hres, ?_, ?_⟩
      · rw [Tree.loop_cons_error D build h db w dc rest content log e hres]
      · rw [Tree.loop_cons_error D build h db w dc rest content log e hres]
        simp
    | ok branch =>
      rw [Tree.loop_cons_ok D build h db w dc rest content log branch hres]
      rcases ih
          (content.appendChild
            ((branch.setKind DataCenterKind).setObject
              (Object.DataCenter ((DataCenter.zero.With dc).Link D h.Handler.Provider))))
          (log ++ [Tree.call build h db dc])
        with ⟨hall, content1, h1, h2, h3⟩ | ⟨pre, x, post, e, hsplit, hpre, hx, h1, h2⟩
      · left
        refine ⟨?_, content1, h1, ?_, ?_⟩
        · intro y hy
          rcases List.mem_cons.mp hy with rfl | hy
          · exact ⟨branch, hres⟩
          · exact hall y hy
        · rw [h2]; simp
        · rw [h3]
          cases content with
          | mk cp ck co cc =>
            cases branch with
            | mk bp bk bo bc =>
              simp [TreeNode.appendChild, TreeNode.Children, TreeNode.setKind,
                TreeNode.setObject, Tree.facet, TreeNode.Kind, TreeNode.Object]
      · right
        refine ⟨dc :: pre, x, post, e, by simp [hsplit], ?_, hx, h1, ?_⟩
        · intro y hy
          rcases List.mem_cons.mp hy with rfl | hy
          · exact ⟨branch, hres⟩
          · exact hpre y hy
        · rw [h2]; simp

theorem Tree_eq (D : Deps) (build : BuildFn) (h : TreeHandler) (ctx : Context) :
    Tree D build h ctx =
      if (h.Prepare D ctx Response.init).1 ≠ StatusOK then
        { response := (h.Prepare D ctx Response.init).2.2.Status (h.Prepare D ctx Response.init).1
          builds := [] }
      else if (prepared D h ctx).Handler.WatchRequest then
        { response := (h.Prepare D ctx Response.init).2.2.Status StatusBadRequest
          builds := [] }
      else
        Tree.loop D build (prepared D h ctx) (prepared D h ctx).Handler.DB
          (h.Prepare D ctx Response.init).2.2 (prepared D h ctx).datacenters TreeNode.zero [] := by
  unfold Tree prepared
  dsimp only

theorem Tree_builds_mem (D : Deps) (build : BuildFn) (h : TreeHandler) (ctx : Context) :
    ∀ call ∈ (Tree D build h ctx).builds, ∃ dc ∈ (prepared D h ctx).datacenters,
      call = Tree.call build (prepared D h ctx) (prepared D h ctx).Handler.DB dc := by
  rw [Tree_eq]
  by_cases hs : (h.Prepare D ctx Response.init).1 = StatusOK
  · rw [if_neg (not_not.mpr hs)]
    by_cases hw : (prepared D h ctx).Handler.WatchRequest = true
    · rw [if_pos hw]; simp
    · rw [if_neg hw]
      rcases Tree.loop_spec D build (prepared D h ctx) (prepared D h ctx).Handler.DB
          (h.Prepare D ctx Response.init).2.2 (prepared D h ctx).datacenters TreeNode.zero []
        with ⟨_, content1, _, h2, _⟩ | ⟨pre, x, post, e, hsplit, _, _, _, h2⟩
      · rw [h2]
        intro call hcall
        simp only [List.nil_append, List.mem_map] at hcall
        obtain ⟨dc, hdc, rfl⟩ := hcall
        exact ⟨dc, hdc, rfl⟩
      · rw [h2]
        intro call hcall
        simp only [List.nil_append, List.mem_map] at hcall
        obtain ⟨dc, hdc, rfl⟩ := hcall
        refine ⟨dc, ?_, rfl⟩
        rw [hsplit]
        rcases List.mem_append.mp hdc with hdc | hdc
        · exact List.mem_append_left _ hdc
        · rw [List.mem_singleton] at hdc
          subst hdc
          exact List.mem_append_right _ (List.mem_cons_self _ _)
  · rw [if_pos hs]; simp

/-- C1: the tree endpoint is all-or-nothing.  If any `Build` call the handler
makes returns an error the response is internal-server-error without content;
in particular, after a successful preparation of a request that is not a
watch, an error from the branch of any data center of the list gives that
response, whatever was built for the data centers before it.  Content is
emitted only with status 200, only after `Build` was called for every data
center of the list, and only when every call returned a branch.  Every call
logged is the `Build` call for a data center of the list. -/
theorem Tree_all_or_nothing (D : Deps) (build : BuildFn) (h : TreeHandler) (ctx : Context) :
    ((∃ call ∈ (Tree D build h ctx).builds, ∃ e, call.result = .error e) →
      (Tree D build h ctx).response.status = StatusInternalServerError ∧
      (Tree D build h ctx).response.body = none) ∧
    ((h.Prepare D ctx Response.init).1 = StatusOK →
      (prepared D h ctx).Handler.WatchRequest = false →
      (∃ dc ∈ (prepared D h ctx).datacenters, ∃ e,
        (Tree.call build (prepared D h ctx) (prepared D h ctx).Handler.DB dc).result
          = .error e) →
      (Tree D build h ctx).response.status = StatusInternalServerError ∧
      (Tree D build h ctx).response.body = none) ∧
    (∀ content, (Tree D build h ctx).response.body = some content →
      (Tree D build h ctx).response.status = StatusOK ∧
      (h.Prepare D ctx Response.init).1 = StatusOK ∧
      (Tree D build h ctx).builds
        = (prepared D h ctx).datacenters.map
            (Tree.call build (prepared D h ctx) (prepared D h ctx).Handler.DB) ∧
      ∀ dc ∈ (prepared D h ctx).datacenters, ∃ node,
        (Tree.call build (prepared D h ctx) (prepared D h ctx).Handler.DB dc).result
          = .ok node) ∧
    (∀ call ∈ (Tree D build h ctx).builds, ∃ dc ∈ (prepared D h ctx).datacenters,
      call = Tree.call build (prepared D h ctx) (prepared D h ctx).Handler.DB dc) := by
  have hbody := Prepare_body D h ctx Response.init
  have hnone : (h.Prepare D ctx Response.init).2.2.body = none := by rw [hbody]; rfl
  rw [Tree_eq]
  by_cases hs : (h.Prepare D ctx Response.init).1 = StatusOK
  · rw [if_neg (not_not.mpr hs)]
    by_cases hw : (prepared D h ctx).Handler.WatchRequest = true
    · rw [if_pos hw]
      refine ⟨by simp, ?_, ?_, by simp⟩
      · intro _ hf; rw [hw] at hf; cases hf
      · intro content hc
        simp [Response.Status, hnone] at hc
    · rw [if_neg hw]
      rcases Tree.loop_spec D build (prepared D h ctx) (prepared D h ctx).Handler.DB
          (h.Prepare D ctx Response.init).2.2 (prepared D h ctx).datacenters TreeNode.zero []
        with ⟨hall, content1, h1, h2, _⟩ | ⟨pre, x, post, e, hsplit, hpre, hx, h1, h2⟩
      · rw [h1, h2]
        refine ⟨?_, ?_, ?_, ?_⟩
        · rintro ⟨call, hcall, e, he⟩
          simp only [List.nil_append, List.mem_map] at hcall
          obtain ⟨dc, hdc, rfl⟩ := hcall
          obtain ⟨node, hn⟩ := hall dc hdc
          rw [hn] at he; cases he
        · rintro _ _ ⟨dc, hdc, e, he⟩
          obtain ⟨node, hn⟩ := hall dc hdc
          rw [hn] at he; cases he
        · intro content _
          exact ⟨rfl, hs, by simp, hall⟩
        · intro call hcall
          simp only [List.nil_append, List.mem_map] at hcall
          obtain ⟨dc, hdc, rfl⟩ := hcall
          exact ⟨dc, hdc, rfl⟩
      · rw [h1, h2]
        have h500 : ((h.Prepare D ctx Response.init).2.2.Status
              StatusInternalServerError).status = StatusInternalServerError ∧
            ((h.Prepare D ctx Response.init).2.2.Status StatusInternalServerError).body
              = none := ⟨rfl, by simp [Response.Status, hnone]⟩
        refine ⟨fun _ => h500, fun _ _ _ => h500, ?_, ?_⟩
        · intro content hc
          rw [h500.2] at hc; cases hc
        · intro call hcall
          simp only [List.nil_append, List.mem_map] at hcall
          obtain ⟨dc, hdc, rfl⟩ := hcall
          refine ⟨dc, ?_, rfl⟩
          rw [hsplit]
          rcases List.mem_append.mp hdc with hdc | hdc
          · exact List.mem_append_left _ hdc
          · rw [List.mem_singleton] at hdc
            subst hdc
            exact List.mem_append_right _ (List.mem_cons_self _ _)
  · rw [if_pos hs]
    refine ⟨by simp, fun hok => absurd hok hs, ?_, by simp⟩
    intro content hc
    simp [Response.Status, hnone] at hc

/-- C6 (amended): when the tree endpoint emits content, its top-level nodes
are, in the order of the data-center list, nodes of kind DataCenter whose
object is the full DataCenter resource of the data center, whatever the
request's detail flag and whatever object `Build` left on the branch.  In
every `Build` call the handler makes, the node builder of the tree handed to
`Build` has a detail map whose only key is the VM kind, with the request's
detail flag as value, so that it builds with detail for no other kind; the
result logged for the call is what `Build` returned on the tree, root and
navigator logged. -/
theorem Tree_top_level (D : Deps) (build : BuildFn) (h : TreeHandler) (ctx : Context) :
    (∀ content, (Tree D build h ctx).response.body = some content →
      content.Children.map Tree.facet =
        (prepared D h ctx).datacenters.map (fun dc =>
          (DataCenterKind,
            Object.DataCenter
              ((DataCenter.zero.With dc).Link D (prepared D h ctx).Handler.Provider)))) ∧
    (∀ call ∈ (Tree D build h ctx).builds,
      (call.result, call.reads) = build call.tree call.root call.navigator ∧
      (∀ kind, call.tree.NodeBuilder.detail kind =
        if kind = VmKind then some (prepared D h ctx).Handler.Detail else none) ∧
      (∀ kind, call.tree.NodeBuilder.withDetail kind
        = (decide (kind = VmKind) && (prepared D h ctx).Handler.Detail))) := by
  constructor
  · have hbody := Prepare_body D h ctx Response.init
    have hnone : (h.Prepare D ctx Response.init).2.2.body = none := by rw [hbody]; rfl
    rw [Tree_eq]
    intro content hc
    by_cases hs : (h.Prepare D ctx Response.init).1 = StatusOK
    · rw [if_neg (not_not.mpr hs)] at hc
      by_cases hw : (prepared D h ctx).Handler.WatchRequest = true
      · rw [if_pos hw] at hc
        simp [Response.Status, hnone] at hc
      · rw [if_neg hw] at hc
        rcases Tree.loop_spec D build (prepared D h ctx) (prepared D h ctx).Handler.DB
            (h.Prepare D ctx Response.init).2.2 (prepared D h ctx).datacenters TreeNode.zero []
          with ⟨_, content1, h1, _, h3⟩ | ⟨pre, x, post, e, _, _, _, h1, _⟩
        · rw [h1] at hc
          simp only [Response.JSON, Option.some.injEq] at hc
          subst hc
          rw [h3]
          simp [TreeNode.zero, TreeNode.Children]
        · rw [h1] at hc
          simp [Response.Status, hnone] at hc
    · rw [if_pos hs] at hc
      simp [Response.Status, hnone] at hc
  · intro call hcall
    obtain ⟨dc, _, rfl⟩ := Tree_builds_mem D build h ctx call hcall
    refine ⟨rfl, fun kind => rfl, ?_⟩
    intro kind
    show NodeBuilder.withDetail (Tree.nodeBuilder (prepared D h ctx)) kind = _
    unfold NodeBuilder.withDetail Tree.nodeBuilder
    by_cases hk : kind = VmKind <;> simp [hk]

/-- C8: a request to the tree endpoint that asks for a watch and whose
preparation succeeds is answered bad-request, without content, and no `Build`
call is made, so the navigator is never queried. -/
theorem Tree_watch (D : Deps) (build : BuildFn) (h : TreeHandler) (ctx : Context)
    (hp : (h.Prepare D ctx Response.init).1 = StatusOK)
    (hw : (prepared D h ctx).Handler.WatchRequest = true) :
    (Tree D build h ctx).response.status = StatusBadRequest ∧
    (Tree D build h ctx).response.body = none ∧
    (Tree D build h ctx).builds = [] := by
  have hbody := Prepare_body D h ctx Response.init
  rw [Tree_eq, if_neg (not_not.mpr hp), if_pos hw]
  refine ⟨rfl, ?_, rfl⟩
  show (h.Prepare D ctx Response.init).2.2.body = none
  rw [hbody]
  rfl

end TreeHandler

/-! ## The properties at the fixture -/

/-- Witness of `BranchNavigator.Next_children`: every read of the fixture store
succeeds, and the children of cluster `c1` are its hosts followed by its
VMs. -/
theorem BranchNavigator.Next_children_witness :
    (∀ o, ∃ l, fixture.db.ListCluster o = .ok l) ∧
    (∀ o, ∃ l, fixture.db.ListHost o = .ok l) ∧
    (∀ o, ∃ l, fixture.db.ListVM o = .ok l) ∧
    (BranchNavigator.Next { db := fixture.db, detail := false } (.Cluster fixture.c1)).err
      = none ∧
    ∃ hosts vms,
      fixture.db.ListHost { Predicate := some { Field := "Cluster", Value := "c1" } }
        = .ok hosts ∧
      fixture.db.ListVM { Predicate := some { Field := "Cluster", Value := "c1" }, Detail := 0 }
        = .ok vms ∧
      (BranchNavigator.Next { db := fixture.db, detail := false } (.Cluster fixture.c1)).r
        = hosts.map Model.Host ++ vms.map Model.VM ∧
      (BranchNavigator.Next { db := fixture.db, detail := false } (.Cluster fixture.c1)).r.length
        = hosts.length + vms.length :=
  ⟨fun _ => ⟨_, rfl⟩, fun _ => ⟨_, rfl⟩, fun _ => ⟨_, rfl⟩,
   (BranchNavigator.Next_children { db := fixture.db, detail := false }
      (fun _ => ⟨_, rfl⟩) (fun _ => ⟨_, rfl⟩) (fun _ => ⟨_, rfl⟩)).1 (.Cluster fixture.c1),
   (BranchNavigator.Next_children { db := fixture.db, detail := false }
      (fun _ => ⟨_, rfl⟩) (fun _ => ⟨_, rfl⟩) (fun _ => ⟨_, rfl⟩)).2.2.1 fixture.c1⟩

/-- Witness of `detail_preserves_shape`: the fixture store answers the VM read
with the same identities whatever the detail, and the children of cluster `c1`
have the same kinds and IDs with and without detail. -/
theorem detail_preserves_shape_witness :
    (∀ o1 o2 : ListOptions, o1.Predicate = o2.Predicate →
      (fixture.db.ListVM o1).toOption.map (List.map (fun v => v.Base.ID))
        = (fixture.db.ListVM o2).toOption.map (List.map (fun v => v.Base.ID))) ∧
    (BranchNavigator.Next { db := fixture.db, detail := true } (.Cluster fixture.c1)).r.map
        (fun m => (ToKind m, m.ID))
      = (BranchNavigator.Next { db := fixture.db, detail := false } (.Cluster fixture.c1)).r.map
        (fun m => (ToKind m, m.ID)) :=
  ⟨fun o1 o2 h => by simp [fixture.db, fixture.select, h],
   (detail_preserves_shape fixture.deps (fixture.handler fixture.db true false)
      (fun _ => some true) (fun _ => none) fixture.db true false).2.2
      (fun o1 o2 h => by simp [fixture.db, fixture.select, h]) (.Cluster fixture.c1)⟩

namespace TreeHandler

open http

/-- Witness of `Tree_all_or_nothing`: over the store in which the clusters of
`dc2` cannot be listed, the request is prepared, is not a watch, the branch of
`dc2` fails after that of `dc1` was built, and the response is
internal-server-error without content. -/
theorem Tree_all_or_nothing_witness :
    (TreeHandler.Prepare fixture.deps
        { Handler := fixture.handler fixture.dbDown false false, datacenters := [] }
        fixture.ctx Response.init).1 = StatusOK ∧
    (∃ node,
      (Tree.call (ovirt.Tree.BuildFn fixture.deps)
        (prepared fixture.deps
          { Handler := fixture.handler fixture.dbDown false false, datacenters := [] }
          fixture.ctx)
        fixture.dbDown fixture.dc1).result = .ok node) ∧
    (Tree fixture.deps (ovirt.Tree.BuildFn fixture.deps)
        { Handler := fixture.handler fixture.dbDown false false, datacenters := [] }
        fixture.ctx).response.status = StatusInternalServerError ∧
    (Tree fixture.deps (ovirt.Tree.BuildFn fixture.deps)
        { Handler := fixture.handler fixture.dbDown false false, datacenters := [] }
        fixture.ctx).response.body = none :=
  ⟨rfl, ⟨_, rfl⟩,
   (Tree_all_or_nothing fixture.deps (ovirt.Tree.BuildFn fixture.deps)
      { Handler := fixture.handler fixture.dbDown false false, datacenters := [] }
      fixture.ctx).2.1 rfl rfl
      ⟨fixture.dc2, by decide, Error.Other "store down", rfl⟩⟩

/-- Witness of `Tree_watch`: the fixture handler with the watch flag set. -/
theorem Tree_watch_witness :
    (Tree fixture.deps (ovirt.Tree.BuildFn fixture.deps)
        { Handler := fixture.handler fixture.db false true, datacenters := [] }
        fixture.ctx).response.status = StatusBadRequest ∧
    (Tree fixture.deps (ovirt.Tree.BuildFn fixture.deps)
        { Handler := fixture.handler fixture.db false true, datacenters := [] }
        fixture.ctx).response.body = none ∧
    (Tree fixture.deps (ovirt.Tree.BuildFn fixture.deps)
        { Handler := fixture.handler fixture.db false true, datacenters := [] }
        fixture.ctx).builds = [] :=
  Tree_watch fixture.deps (ovirt.Tree.BuildFn fixture.deps)
    { Handler := fixture.handler fixture.db false true, datacenters := [] } fixture.ctx rfl rfl

/-- Witness of `Tree_top_level`: over the fixture store content is emitted, its
top-level nodes carry the full DataCenter resources, `Build` is called for
`dc1` and `dc2`, and the node builder handed to each call builds with detail
for no kind (the request's detail flag is off). -/
theorem Tree_top_level_witness :
    (∃ content,
      (Tree fixture.deps (ovirt.Tree.BuildFn fixture.deps)
        { Handler := fixture.handler fixture.db false false, datacenters := [] }
        fixture.ctx).response.body = some content ∧
      content.Children.map Tree.facet =
        [fixture.dc1, fixture.dc2].map (fun dc =>
          (DataCenterKind,
            Object.DataCenter ((DataCenter.zero.With dc).Link fixture.deps fixture.provider)))) ∧
    (Tree fixture.deps (ovirt.Tree.BuildFn fixture.deps)
        { Handler := fixture.handler fixture.db false false, datacenters := [] }
        fixture.ctx).builds.map (fun call => call.root)
      = [Model.DataCenter fixture.dc1, Model.DataCenter fixture.dc2] ∧
    (∀ call ∈ (Tree fixture.deps (ovirt.Tree.BuildFn fixture.deps)
        { Handler := fixture.handler fixture.db false false, datacenters := [] }
        fixture.ctx).builds,
      ∀ kind, call.tree.NodeBuilder.withDetail kind = (decide (kind = VmKind) && false)) := by
  refine ⟨?_, by decide, ?_⟩
  · cases hb : (Tree fixture.deps (ovirt.Tree.BuildFn fixture.deps)
          { Handler := fixture.handler fixture.db false false, datacenters := [] }
          fixture.ctx).response.body with
    | none =>
      have hsome : (Tree fixture.deps (ovirt.Tree.BuildFn fixture.deps)
          { Handler := fixture.handler fixture.db false false, datacenters := [] }
          fixture.ctx).response.body.isSome = true := by decide
      rw [hb] at hsome
      cases hsome
    | some content =>
      exact ⟨content, rfl,
        (Tree_top_level fixture.deps (ovirt.Tree.BuildFn fixture.deps)
          { Handler := fixture.handler fixture.db false false, datacenters := [] }
          fixture.ctx).1 content hb⟩
  · intro call hcall
    exact ((Tree_top_level fixture.deps (ovirt.Tree.BuildFn fixture.deps)
      { Handler := fixture.handler fixture.db false false, datacenters := [] }
      fixture.ctx).2 call hcall).2.2

/-- C6 (counterexample): over the fixture store, without detail, the tree
endpoint answers two top-level nodes of kind DataCenter whose objects are the
full DataCenter resources of `dc1` and `dc2`; they are not reference stubs. -/
theorem Tree_top_level_not_stub :
    (Tree fixture.deps (ovirt.Tree.BuildFn fixture.deps)
        { Handler := fixture.handler fixture.db false false, datacenters := [] }
        fixture.ctx).response.body.map (fun content => content.Children.map Tree.facet)
      = some
          [(DataCenterKind, Object.DataCenter
              { Resource :=
                  { ID := "dc1", SelfLink := "providers/ovirt/:provider/DataCenter/p1/dc1" } }),
           (DataCenterKind, Object.DataCenter
              { Resource :=
                  { ID := "dc2", SelfLink := "providers/ovirt/:provider/DataCenter/p1/dc2" } })] ∧
    ¬ (∀ content,
        (Tree fixture.deps (ovirt.Tree.BuildFn fixture.deps)
          { Handler := fixture.handler fixture.db false false, datacenters := [] }
          fixture.ctx).response.body = some content →
        ∀ node ∈ content.Children, ∃ r : Resource, node.Object = Object.Resource r) := by
  have hmap : (Tree fixture.deps (ovirt.Tree.BuildFn fixture.deps)
        { Handler := fixture.handler fixture.db false false, datacenters := [] }
        fixture.ctx).response.body.map (fun content => content.Children.map Tree.facet)
      = some
          [(DataCenterKind, Object.DataCenter
              { Resource :=
                  { ID := "dc1", SelfLink := "providers/ovirt/:provider/DataCenter/p1/dc1" } }),
           (DataCenterKind, Object.DataCenter
              { Resource :=
                  { ID := "dc2", SelfLink := "providers/ovirt/:provider/DataCenter/p1/dc2" } })] := by
    decide
  refine ⟨hmap, ?_⟩
  intro hall
  cases hb : (Tree fixture.deps (ovirt.Tree.BuildFn fixture.deps)
        { Handler := fixture.handler fixture.db false false, datacenters := [] }
        fixture.ctx).response.body with
  | none => rw [hb] at hmap; cases hmap
  | some content =>
    rw [hb] at hmap
    simp only [Option.map_some', Option.some.injEq] at hmap
    cases hch : content.Children with
    | nil => rw [hch] at hmap; cases hmap
    | cons node rest =>
      rw [hch] at hmap
      simp only [List.map_cons, List.cons.injEq] at hmap
      obtain ⟨r, hr⟩ := hall content hb node (by rw [hch]; exact List.mem_cons_self _ _)
      have hobj := congrArg Prod.snd hmap.1
      simp only [Tree.facet] at hobj
      rw [hr] at hobj
      cases hobj

end TreeHandler

end ovirt

/-! ## The modelled builder returns from a data center -/

namespace ovirt

open model

theorem Tree.walk_fold_isSome (D : Deps) (tr : Tree) (nav : BranchNavigator) (fuel : Nat)
    (node : TreeNode) :
    ∀ (kids : List Model) (acc : Option (Except Error TreeNode × List Read)),
      acc.isSome →
      (∀ child ∈ kids, (Tree.walk D tr nav fuel (some node) child).isSome) →
      (kids.foldl
        (fun acc child =>
          match acc with
          | some (.ok n, reads) =>
            match Tree.walk D tr nav fuel (some node) child with
            | none => none
            | some (.ok branch, rs) => some (.ok (n.appendChild branch), reads ++ rs)
            | some (.error err, rs) => some (.error err, reads ++ rs)
          | other => other)
        acc).isSome := by
  intro kids
  induction kids with
  | nil => intro acc hacc _; simpa using hacc
  | cons child rest ih =>
    intro acc hacc hkids
    rw [List.foldl_cons]
    apply ih
    · have hc := hkids child (List.mem_cons_self _ _)
      cases acc with
      | none => cases hacc
      | some a =>
        rcases a with ⟨res, reads⟩
        cases res with
        | error e => rfl
        | ok n =>
          cases hw : Tree.walk D tr nav fuel (some node) child with
          | none => rw [hw] at hc; cases hc
          | some b =>
            rcases b with ⟨res2, rs⟩
            cases res2 <;> simp [hw]
    · intro x hx
      exact hkids x (List.mem_cons_of_mem _ hx)

theorem Tree.walk_isSome_of_kids (D : Deps) (tr : Tree) (nav : BranchNavigator) (fuel : Nat)
    (parent : Option TreeNode) (m : Model)
    (hnode : (tr.NodeBuilder.Node D parent m).isSome)
    (hkids : ∀ node, ∀ child ∈ (nav.Next m).r,
      (Tree.walk D tr nav fuel (some node) child).isSome) :
    (Tree.walk D tr nav (fuel + 1) parent m).isSome := by
  rw [Tree.walk]
  cases hn : tr.NodeBuilder.Node D parent m with
  | none => rw [hn] at hnode; cases hnode
  | some node =>
    simp only
    cases he : (nav.Next m).err with
    | some e => rfl
    | none =>
      simp only
      exact Tree.walk_fold_isSome D tr nav fuel node _ _ rfl (hkids node)

theorem BranchNavigator.Next_DataCenter_kids (n : BranchNavigator) (dc : model.DataCenter) :
    ∀ child ∈ (n.Next (.DataCenter dc)).r, ∃ c, child = Model.Cluster c := by
  intro child hchild
  rw [BranchNavigator.Next_DataCenter] at hchild
  cases h : (n.listCluster dc).1 with
  | error e => rw [h] at hchild; cases hchild
  | ok list =>
    rw [h] at hchild
    obtain ⟨c, _, rfl⟩ := List.mem_map.mp hchild
    exact ⟨c, rfl⟩

theorem BranchNavigator.Next_Cluster_kids (n : BranchNavigator) (c : model.Cluster) :
    ∀ child ∈ (n.Next (.Cluster c)).r,
      (∃ x, child = Model.Host x) ∨ (∃ x, child = Model.VM x) := by
  intro child hchild
  cases h : (n.listHost c).1 with
  | error e =>
    rw [BranchNavigator.Next_Cluster_host_error n c e h] at hchild
    cases hchild
  | ok hosts =>
    rw [BranchNavigator.Next_Cluster_host_ok n c hosts h] at hchild
    cases hv : (n.listVM c).1 with
    | error e =>
      rw [hv] at hchild
      obtain ⟨x, _, rfl⟩ := List.mem_map.mp hchild
      exact Or.inl ⟨x, rfl⟩
    | ok vms =>
      rw [hv] at hchild
      rcases List.mem_append.mp hchild with hc | hc
      · obtain ⟨x, _, rfl⟩ := List.mem_map.mp hc
        exact Or.inl ⟨x, rfl⟩
      · obtain ⟨x, _, rfl⟩ := List.mem_map.mp hc
        exact Or.inr ⟨x, rfl⟩

theorem Tree.walk_Host_isSome (D : Deps) (tr : Tree) (nav : BranchNavigator) (fuel : Nat)
    (parent : Option TreeNode) (x : model.Host) :
    (Tree.walk D tr nav (fuel + 1) parent (.Host x)).isSome := by
  apply Tree.walk_isSome_of_kids
  · rw [NodeBuilder.Node_Host]; rfl
  · intro node child hchild
    rw [BranchNavigator.Next_leaf nav _ (by intro dc h; cases h) (by intro c h; cases h)] at hchild
    cases hchild

theorem Tree.walk_VM_isSome (D : Deps) (tr : Tree) (nav : BranchNavigator) (fuel : Nat)
    (parent : Option TreeNode) (x : model.VM) :
    (Tree.walk D tr nav (fuel + 1) parent (.VM x)).isSome := by
  apply Tree.walk_isSome_of_kids
  · rw [NodeBuilder.Node_VM]; rfl
  · intro node child hchild
    rw [BranchNavigator.Next_leaf nav _ (by intro dc h; cases h) (by intro c h; cases h)] at hchild
    cases hchild

theorem Tree.walk_Cluster_isSome (D : Deps) (tr : Tree) (nav : BranchNavigator) (fuel : Nat)
    (parent : Option TreeNode) (c : model.Cluster) :
    (Tree.walk D tr nav (fuel + 2) parent (.Cluster c)).isSome := by
  apply Tree.walk_isSome_of_kids
  · rw [NodeBuilder.Node_Cluster]; rfl
  · intro node child hchild
    rcases BranchNavigator.Next_Cluster_kids nav c child hchild with ⟨x, rfl⟩ | ⟨x, rfl⟩
    · exact Tree.walk_Host_isSome D tr nav fuel _ x
    · exact Tree.walk_VM_isSome D tr nav fuel _ x

/-- From a data center the modelled `Build` returns with fuel 3 (or more): the
branch under `BranchNavigator` is at most three records deep, and
`NodeBuilder.Node` does not panic on the records the navigator returns. -/
theorem Tree.Build_returns (D : Deps) (tr : Tree) (nav : BranchNavigator) (fuel : Nat)
    (dc : model.DataCenter) :
    (Tree.Build D (fuel + 3) tr (.DataCenter dc) nav).isSome := by
  unfold Tree.Build
  apply Tree.walk_isSome_of_kids
  · rw [NodeBuilder.Node_DataCenter]; rfl
  · intro node child hchild
    obtain ⟨c, rfl⟩ := BranchNavigator.Next_DataCenter_kids nav dc child hchild
    exact Tree.walk_Cluster_isSome D tr nav fuel _ c

/-- The builder the fixtures hand to the handler is the modelled `Build` with
fuel 3 on every data center: its fallback is never taken there. -/
theorem Tree.BuildFn_DataCenter (D : Deps) (tr : Tree) (nav : BranchNavigator)
    (dc : model.DataCenter) :
    Tree.Build D 3 tr (.DataCenter dc) nav = some (Tree.BuildFn D tr (.DataCenter dc) nav) := by
  have h := Tree.Build_returns D tr nav 0 dc
  unfold Tree.BuildFn
  cases hb : Tree.Build D 3 tr (.DataCenter dc) nav with
  | none => rw [Nat.zero_add, hb] at h; cases h
  | some res => rfl

end ovirt

/-! ## Item handlers -/

theorem ovirt.HostHandler.Get_host_eq (D : ovirt.Deps) (h : ovirt.HostHandler) (ctx : Context)
    (base : ovirt.Handler) (hp : D.Prepare h.Handler ctx = (http.StatusOK, base)) :
    ovirt.HostHandler.Get D h ctx =
      match base.DB.GetHost (ovirt.HostHandler.key ctx) with
      | .error err =>
        if errors.IsNotFound err then { status := http.StatusNotFound, body := none }
        else { status := http.StatusInternalServerError, body := none }
      | .ok m =>
        { status := http.StatusOK
          body := some (ovirt.Object.Host ((ovirt.Host.zero.With m).Link D base.Provider)) } := by
  unfold ovirt.HostHandler.Get ovirt.HostHandler.key
  simp only [hp]
  cases base.DB.GetHost
      { ovirt.model.Host.zero with Base := { ID := ctx.Param ovirt.HostParam } } with
  | error e => cases he : errors.IsNotFound e <;> simp [he, Response.Status, Response.init]
  | ok m => simp [Response.JSON, ovirt.Host.Content]

theorem vsphere.DatastoreHandler.Get_datastore_eq (D : vsphere.Deps) (h : vsphere.DatastoreHandler)
    (ctx : Context) (base : vsphere.Handler)
    (hp : D.Prepare h.Handler ctx = (http.StatusOK, base)) :
    vsphere.DatastoreHandler.Get D h ctx =
      match base.DB.GetDatastore (vsphere.DatastoreHandler.key ctx) with
      | .error err =>
        if errors.IsNotFound err then { status := http.StatusNotFound, body := none }
        else { status := http.StatusInternalServerError, body := none }
      | .ok m =>
        match D.DatastorePath m base.DB with
        | .error _ => { status := http.StatusInternalServerError, body := none }
        | .ok path =>
          { status := http.StatusOK
            body := some (vsphere.Object.Datastore
              (vsphere.DatastoreHandler.resource D base.Provider m path)) } := by
  unfold vsphere.DatastoreHandler.Get vsphere.DatastoreHandler.key
    vsphere.DatastoreHandler.resource
  simp only [hp]
  cases base.DB.GetDatastore
      { vsphere.model.Datastore.zero with Base := { ID := ctx.Param vsphere.DatastoreParam } } with
  | error e => cases he : errors.IsNotFound e <;> simp [he, Response.Status, Response.init]
  | ok m =>
    cases hq : D.DatastorePath m base.DB with
    | error e => simp [hq, Response.Status, Response.init]
    | ok path => simp [hq, Response.JSON, vsphere.Datastore.Content]

theorem vsphere.FolderHandler.Get_folder_eq (D : vsphere.Deps) (h : vsphere.FolderHandler)
    (ctx : Context) (base : vsphere.Handler)
    (hp : D.Prepare h.Handler ctx = (http.StatusOK, base)) :
    vsphere.FolderHandler.Get D h ctx =
      match base.DB.GetFolder (vsphere.FolderHandler.key ctx) with
      | .error err =>
        if errors.IsNotFound err then { status := http.StatusNotFound, body := none }
        else { status := http.StatusInternalServerError, body := none }
      | .ok m =>
        match D.FolderPath m base.DB with
        | .error _ => { status := http.StatusInternalServerError, body := none }
        | .ok path =>
          { status := http.StatusOK
            body := some (vsphere.Object.Folder
              (vsphere.FolderHandler.resource D base.Provider m path)) } := by
  unfold vsphere.FolderHandler.Get vsphere.FolderHandler.key vsphere.FolderHandler.resource
  simp only [hp]
  cases base.DB.GetFolder
      { vsphere.model.Folder.zero with Base := { ID := ctx.Param vsphere.FolderParam } } with
  | error e => cases he : errors.IsNotFound e <;> simp [he, Response.Status, Response.init]
  | ok m =>
    cases hq : D.FolderPath m base.DB with
    | error e => simp [hq, Response.Status, Response.init]
    | ok path => simp [hq, Response.JSON, vsphere.Folder.Content]

/-- C9: the Host, Datastore and Folder item handlers, after a successful
preparation.  The status is not-found exactly when the store's get fails with
an error that is NotFound; it is internal-server-error exactly when the get
fails with another error or, for Datastore and Folder, the get succeeds and the
path resolution fails; in both cases nothing is emitted.  Otherwise the
response is 200 with the full resource built from the record the store
returned for the requested key (with its resolved path for Datastore and
Folder), whose ID is that of the record. -/
theorem item_Get_status :
    (∀ (D : ovirt.Deps) (h : ovirt.HostHandler) (ctx : Context) (base : ovirt.Handler),
      D.Prepare h.Handler ctx = (http.StatusOK, base) →
      ((ovirt.HostHandler.Get D h ctx).status = http.StatusNotFound ↔
        ∃ e, base.DB.GetHost (ovirt.HostHandler.key ctx) = .error e ∧
          errors.IsNotFound e = true) ∧
      ((ovirt.HostHandler.Get D h ctx).status = http.StatusInternalServerError ↔
        ∃ e, base.DB.GetHost (ovirt.HostHandler.key ctx) = .error e ∧
          errors.IsNotFound e = false) ∧
      ((∃ e, base.DB.GetHost (ovirt.HostHandler.key ctx) = .error e) →
        (ovirt.HostHandler.Get D h ctx).body = none) ∧
      (∀ m, base.DB.GetHost (ovirt.HostHandler.key ctx) = .ok m →
        ovirt.HostHandler.Get D h ctx =
          { status := http.StatusOK
            body := some (ovirt.Object.Host ((ovirt.Host.zero.With m).Link D base.Provider)) } ∧
        ((ovirt.Host.zero.With m).Link D base.Provider).Resource.ID = m.Base.ID)) ∧
    (∀ (D : vsphere.Deps) (h : vsphere.DatastoreHandler) (ctx : Context)
        (base : vsphere.Handler),
      D.Prepare h.Handler ctx = (http.StatusOK, base) →
      ((vsphere.DatastoreHandler.Get D h ctx).status = http.StatusNotFound ↔
        ∃ e, base.DB.GetDatastore (vsphere.DatastoreHandler.key ctx) = .error e ∧
          errors.IsNotFound e = true) ∧
      ((vsphere.DatastoreHandler.Get D h ctx).status = http.StatusInternalServerError ↔
        (∃ e, base.DB.GetDatastore (vsphere.DatastoreHandler.key ctx) = .error e ∧
          errors.IsNotFound e = false) ∨
        (∃ m e, base.DB.GetDatastore (vsphere.DatastoreHandler.key ctx) = .ok m ∧
          D.DatastorePath m base.DB = .error e)) ∧
      ((vsphere.DatastoreHandler.Get D h ctx).status ≠ http.StatusOK →
        (vsphere.DatastoreHandler.Get D h ctx).body = none) ∧
      (∀ m path, base.DB.GetDatastore (vsphere.DatastoreHandler.key ctx) = .ok m →
        D.DatastorePath m base.DB = .ok path →
        vsphere.DatastoreHandler.Get D h ctx =
          { status := http.StatusOK
            body := some (vsphere.Object.Datastore
              (vsphere.DatastoreHandler.resource D base.Provider m path)) } ∧
        (vsphere.DatastoreHandler.resource D base.Provider m path).Resource.ID = m.Base.ID ∧
        (vsphere.DatastoreHandler.resource D base.Provider m path).Resource.Path = path)) ∧
    (∀ (D : vsphere.Deps) (h : vsphere.FolderHandler) (ctx : Context) (base : vsphere.Handler),
      D.Prepare h.Handler ctx = (http.StatusOK, base) →
      ((vsphere.FolderHandler.Get D h ctx).status = http.StatusNotFound ↔
        ∃ e, base.DB.GetFolder (vsphere.FolderHandler.key ctx) = .error e ∧
          errors.IsNotFound e = true) ∧
      ((vsphere.FolderHandler.Get D h ctx).status = http.StatusInternalServerError ↔
        (∃ e, base.DB.GetFolder (vsphere.FolderHandler.key ctx) = .error e ∧
          errors.IsNotFound e = false) ∨
        (∃ m e, base.DB.GetFolder (vsphere.FolderHandler.key ctx) = .ok m ∧
          D.FolderPath m base.DB = .error e)) ∧
      ((vsphere.FolderHandler.Get D h ctx).status ≠ http.StatusOK →
        (vsphere.FolderHandler.Get D h ctx).body = none) ∧
      (∀ m path, base.DB.GetFolder (vsphere.FolderHandler.key ctx) = .ok m →
        D.FolderPath m base.DB = .ok path →
        vsphere.FolderHandler.Get D h ctx =
          { status := http.StatusOK
            body := some (vsphere.Object.Folder
              (vsphere.FolderHandler.resource D base.Provider m path)) } ∧
        (vsphere.FolderHandler.resource D base.Provider m path).Resource.ID = m.Base.ID ∧
        (vsphere.FolderHandler.resource D base.Provider m path).Resource.Path = path)) := by
  refine ⟨?_, ?_, ?_⟩
  · intro D h ctx base hp
    rw [ovirt.HostHandler.Get_host_eq D h ctx base hp]
    cases hg : base.DB.GetHost (ovirt.HostHandler.key ctx) with
    | error e =>
      cases he : errors.IsNotFound e <;>
        simp [he, http.StatusNotFound, http.StatusInternalServerError]
    | ok m =>
      simp [http.StatusOK, http.StatusNotFound, http.StatusInternalServerError,
        ovirt.Host.Link, ovirt.Host.With, ovirt.Resource.With]
  · intro D h ctx base hp
    rw [vsphere.DatastoreHandler.Get_datastore_eq D h ctx base hp]
    cases hg : base.DB.GetDatastore (vsphere.DatastoreHandler.key ctx) with
    | error e =>
      cases he : errors.IsNotFound e <;>
        simp [he, http.StatusNotFound, http.StatusInternalServerError]
    | ok m =>
      cases hq : D.DatastorePath m base.DB with
      | error e =>
        simp [hq, http.StatusOK, http.StatusNotFound, http.StatusInternalServerError]
        intro m1 p1 hm hp1
        subst hm
        rw [hq] at hp1
        cases hp1
      | ok path =>
        simp [hq, http.StatusOK, http.StatusNotFound, http.StatusInternalServerError,
          vsphere.DatastoreHandler.resource, vsphere.Datastore.Link, vsphere.Datastore.With,
          vsphere.Resource.With]
        intro m1 p1 hm hp1
        subst hm
        rw [hq] at hp1
        cases hp1
        simp
  · intro D h ctx base hp
    rw [vsphere.FolderHandler.Get_folder_eq D h ctx base hp]
    cases hg : base.DB.GetFolder (vsphere.FolderHandler.key ctx) with
    | error e =>
      cases he : errors.IsNotFound e <;>
        simp [he, http.StatusNotFound, http.StatusInternalServerError]
    | ok m =>
      cases hq : D.FolderPath m base.DB with
      | error e =>
        simp [hq, http.StatusOK, http.StatusNotFound, http.StatusInternalServerError]
        intro m1 p1 hm hp1
        subst hm
        rw [hq] at hp1
        cases hp1
      | ok path =>
        simp [hq, http.StatusOK, http.StatusNotFound, http.StatusInternalServerError,
          vsphere.FolderHandler.resource, vsphere.Folder.Link, vsphere.Folder.With,
          vsphere.Resource.With]
        intro m1 p1 hm hp1
        subst hm
        rw [hq] at hp1
        cases hp1
        simp

/-- Witness of `item_Get_status`: host `h1`, datastore `ds1` and folder `f1` of
the fixtures are answered 200 with their full resources. -/
theorem item_Get_status_witness :
    (ovirt.fixture.deps.Prepare (ovirt.fixture.handler ovirt.fixture.db false false)
        ovirt.fixture.ctx = (http.StatusOK, ovirt.fixture.handler ovirt.fixture.db false false) ∧
      ovirt.HostHandler.Get ovirt.fixture.deps
          { Handler := ovirt.fixture.handler ovirt.fixture.db false false } ovirt.fixture.ctx =
        { status := http.StatusOK
          body := some (ovirt.Object.Host
            ((ovirt.Host.zero.With ovirt.fixture.h1).Link ovirt.fixture.deps
              ovirt.fixture.provider)) }) ∧
    (vsphere.DatastoreHandler.Get vsphere.fixture.deps { Handler := vsphere.fixture.handler }
        (vsphere.fixture.ctx "ds1" "") =
      { status := http.StatusOK
        body := some (vsphere.Object.Datastore
          (vsphere.DatastoreHandler.resource vsphere.fixture.deps vsphere.fixture.provider
            vsphere.fixture.ds1 "/dc1/datastore/shared")) }) ∧
    (vsphere.FolderHandler.Get vsphere.fixture.deps
        { Handler := vsphere.fixture.handler, folder := none } (vsphere.fixture.ctx "f1" "") =
      { status := http.StatusOK
        body := some (vsphere.Object.Folder
          (vsphere.FolderHandler.resource vsphere.fixture.deps vsphere.fixture.provider
            vsphere.fixture.f1 "/dc1/vm/f1")) }) :=
  ⟨⟨rfl,
    ((item_Get_status.1 ovirt.fixture.deps
      { Handler := ovirt.fixture.handler ovirt.fixture.db false false } ovirt.fixture.ctx
      (ovirt.fixture.handler ovirt.fixture.db false false) rfl).2.2.2
      ovirt.fixture.h1 rfl).1⟩,
   ((item_Get_status.2.1 vsphere.fixture.deps { Handler := vsphere.fixture.handler }
      (vsphere.fixture.ctx "ds1" "") vsphere.fixture.handler rfl).2.2.2
      vsphere.fixture.ds1 "/dc1/datastore/shared" rfl rfl).1,
   ((item_Get_status.2.2 vsphere.fixture.deps
      { Handler := vsphere.fixture.handler, folder := none }
      (vsphere.fixture.ctx "f1" "") vsphere.fixture.handler rfl).2.2.2
      vsphere.fixture.f1 "/dc1/vm/f1" rfl rfl).1⟩

/-! ## `DatastoreHandler.filter` -/

theorem strings.splitChars_length (sep : Char) (cs : List Char) :
    (strings.splitChars sep cs).length = cs.count sep + 1 := by
  induction cs with
  | nil => simp [strings.splitChars]
  | cons c rest ih =>
    unfold strings.splitChars
    by_cases h : c = sep
    · subst h
      simp [ih]
    · rw [if_neg h]
      have hc : List.count sep (c :: rest) = List.count sep rest := by
        rw [List.count_cons]
        simp [h]
      rw [hc, ← ih]
      cases hs : strings.splitChars sep rest with
      | nil => rw [hs] at ih; simp at ih
      | cons piece pieces => simp

theorem strings.Split_length_of_mem (s : String) (sep : Char) (h : sep ∈ s.toList) :
    2 ≤ (strings.Split s sep).length := by
  unfold strings.Split
  rw [List.length_map, strings.splitChars_length]
  have : 0 < s.toList.count sep := List.count_pos_iff.mpr h
  omega

theorem vsphere.DatastoreHandler.filter.loop_ok (D : vsphere.Deps)
    (h : vsphere.DatastoreHandler) (name : String) :
    ∀ (list kept result : List vsphere.model.Datastore),
      vsphere.DatastoreHandler.filter.loop D h h.Handler.DB name list kept = .ok result →
      (∀ m ∈ list, ∃ path, D.DatastorePath m h.Handler.DB = .ok path) ∧
      result = kept ++ list.filter (vsphere.DatastoreHandler.pathMatch D h name) := by
  intro list
  induction list with
  | nil =>
    intro kept result hr
    simp only [vsphere.DatastoreHandler.filter.loop, Except.ok.injEq] at hr
    simp [hr]
  | cons m rest ih =>
    intro kept result hr
    unfold vsphere.DatastoreHandler.filter.loop at hr
    cases hq : D.DatastorePath m h.Handler.DB with
    | error e => rw [hq] at hr; cases hr
    | ok path =>
      rw [hq] at hr
      simp only at hr
      have hpm : vsphere.DatastoreHandler.pathMatch D h name m
          = D.PathMatchRoot h.Handler path name := by
        simp [vsphere.DatastoreHandler.pathMatch, hq]
      by_cases hm : D.PathMatchRoot h.Handler path name = true
      · rw [if_pos hm] at hr
        obtain ⟨hall, hres⟩ := ih _ _ hr
        refine ⟨?_, ?_⟩
        · intro x hx
          rcases List.mem_cons.mp hx with rfl | hx
          · exact ⟨path, hq⟩
          · exact hall x hx
        · rw [hres, List.filter_cons, hpm, if_pos hm]
          simp
      · rw [if_neg hm] at hr
        obtain ⟨hall, hres⟩ := ih _ _ hr
        refine ⟨?_, ?_⟩
        · intro x hx
          rcases List.mem_cons.mp hx with rfl | hx
          · exact ⟨path, hq⟩
          · exact hall x hx
        · rw [hres, List.filter_cons, hpm, if_neg hm]

/-- C10 (counterexample): a list holding the single datastore `ds2`, whose
inventory path does not match the path-qualified name of the query, comes back
from `filter` without error and still holds `ds2`. -/
theorem vsphere.DatastoreHandler.filter_single_not_filtered :
    '/' ∈ ((vsphere.fixture.ctx "" "dc1/datastore/shared").Query
        vsphere.fixture.deps.NameParam).toList ∧
    vsphere.DatastoreHandler.pathMatch vsphere.fixture.deps
        { Handler := vsphere.fixture.handler } "dc1/datastore/shared" vsphere.fixture.ds2
      = false ∧
    vsphere.DatastoreHandler.filter vsphere.fixture.deps { Handler := vsphere.fixture.handler }
        (vsphere.fixture.ctx "" "dc1/datastore/shared") [vsphere.fixture.ds2]
      = ([vsphere.fixture.ds2], none) ∧
    ¬ ((vsphere.DatastoreHandler.filter vsphere.fixture.deps
          { Handler := vsphere.fixture.handler }
          (vsphere.fixture.ctx "" "dc1/datastore/shared") [vsphere.fixture.ds2]).2 = none →
        (vsphere.DatastoreHandler.filter vsphere.fixture.deps
          { Handler := vsphere.fixture.handler }
          (vsphere.fixture.ctx "" "dc1/datastore/shared") [vsphere.fixture.ds2]).1
        = [vsphere.fixture.ds2].filter
            (vsphere.DatastoreHandler.pathMatch vsphere.fixture.deps
              { Handler := vsphere.fixture.handler } "dc1/datastore/shared")) := by
  refine ⟨by decide, by decide, by decide, ?_⟩
  decide

/-- C10 (amended): for a name query that is a path (it contains a `/`), a
list of fewer than two datastores comes back from `filter` unchanged and
without error; a list of two or more, when `filter` returns without error,
holds exactly the datastores of the input list whose inventory path matches
the name (`PathMatchRoot`), in their original order, every path having
resolved; when `filter` returns an error the list is unchanged. -/
theorem vsphere.DatastoreHandler.filter_by_path (D : vsphere.Deps)
    (h : vsphere.DatastoreHandler) (ctx : Context) (list : List vsphere.model.Datastore)
    (hname : '/' ∈ (ctx.Query D.NameParam).toList) :
    (list.length < 2 → vsphere.DatastoreHandler.filter D h ctx list = (list, none)) ∧
    (2 ≤ list.length → (vsphere.DatastoreHandler.filter D h ctx list).2 = none →
      (∀ m ∈ list, ∃ path, D.DatastorePath m h.Handler.DB = .ok path) ∧
      (vsphere.DatastoreHandler.filter D h ctx list).1
        = list.filter (vsphere.DatastoreHandler.pathMatch D h (ctx.Query D.NameParam))) ∧
    (∀ e, (vsphere.DatastoreHandler.filter D h ctx list).2 = some e →
      (vsphere.DatastoreHandler.filter D h ctx list).1 = list) := by
  have hlen : ¬ (ctx.Query D.NameParam).length = 0 := by
    intro h0
    have : (ctx.Query D.NameParam).toList = [] := by
      apply List.eq_nil_of_length_eq_zero
      exact h0
    rw [this] at hname
    cases hname
  have hsplit : ¬ (strings.Split (ctx.Query D.NameParam) '/').length < 2 := by
    have := strings.Split_length_of_mem _ _ hname
    omega
  refine ⟨?_, ?_, ?_⟩
  · intro hl
    unfold vsphere.DatastoreHandler.filter
    rw [if_pos hl]
  · intro hl
    have hl2 : ¬ list.length < 2 := by omega
    unfold vsphere.DatastoreHandler.filter
    rw [if_neg hl2]
    simp only [if_neg hlen, if_neg hsplit]
    cases hr : vsphere.DatastoreHandler.filter.loop D h h.Handler.DB (ctx.Query D.NameParam)
        list [] with
    | error e => intro hnone; cases hnone
    | ok kept =>
      intro _
      obtain ⟨hall, hres⟩ := vsphere.DatastoreHandler.filter.loop_ok D h _ list [] kept hr
      exact ⟨hall, by simpa using hres⟩
  · intro e
    unfold vsphere.DatastoreHandler.filter
    by_cases hl : list.length < 2
    · rw [if_pos hl]; intro he; cases he
    · rw [if_neg hl]
      simp only [if_neg hlen, if_neg hsplit]
      cases hr : vsphere.DatastoreHandler.filter.loop D h h.Handler.DB (ctx.Query D.NameParam)
          list [] with
      | error e1 => intro _; rfl
      | ok kept => intro he; cases he

/-- Witness of `filter_by_path`: of the two datastores named `shared`, the query
for `dc1/datastore/shared` keeps `ds1`. -/
theorem vsphere.DatastoreHandler.filter_by_path_witness :
    '/' ∈ ((vsphere.fixture.ctx "" "dc1/datastore/shared").Query
        vsphere.fixture.deps.NameParam).toList ∧
    (vsphere.DatastoreHandler.filter vsphere.fixture.deps { Handler := vsphere.fixture.handler }
        (vsphere.fixture.ctx "" "dc1/datastore/shared")
        [vsphere.fixture.ds1, vsphere.fixture.ds2]).2 = none ∧
    (vsphere.DatastoreHandler.filter vsphere.fixture.deps { Handler := vsphere.fixture.handler }
        (vsphere.fixture.ctx "" "dc1/datastore/shared")
        [vsphere.fixture.ds1, vsphere.fixture.ds2]).1
      = [vsphere.fixture.ds1, vsphere.fixture.ds2].filter
          (vsphere.DatastoreHandler.pathMatch vsphere.fixture.deps
            { Handler := vsphere.fixture.handler }
            ((vsphere.fixture.ctx "" "dc1/datastore/shared").Query
              vsphere.fixture.deps.NameParam)) :=
  ⟨by decide, by decide,
   ((vsphere.DatastoreHandler.filter_by_path vsphere.fixture.deps
      { Handler := vsphere.fixture.handler } (vsphere.fixture.ctx "" "dc1/datastore/shared")
      [vsphere.fixture.ds1, vsphere.fixture.ds2] (by decide)).2.1 (by decide) (by decide)).2⟩
